import Mathlib

/-
Verification development for the gemini-balance key-pool subsystem.

Shallow embedding of:
  app/service/key/key_manager.py      (KeyManager)
  app/service/key/valid_key_pool.py   (ValidKeyPool)
  app/service/key/valid_key_models.py (ValidKeyWithTTL)
  app/handler/error_processor.py      (handle_api_error_and_get_next_key)
  app/handler/stream_retry_handler.py (stream retry engine)

Conventions:
  - credentials are strings; instants are integers (minutes or abstract ticks);
    the TTL clock (naive datetime.now) and the cooldown clock (datetime.now utc)
    are passed as separate parameters nowTtl / nowUtc, matching the two distinct
    clocks used in the source;
  - Python dicts are association lists with first-occurrence lookup and
    in-place update (setAssoc), matching dict insertion-order semantics;
  - Python sets are Finset String (add = insert, discard/remove = erase);
  - nondeterministic choices (random.sample, random.choice) and the outcome of
    network verification calls are passed in as explicit parameters.
-/

/-- First-occurrence lookup in an association list (Python dict read). -/
def alookup {β : Type} : List (String × β) → String → Option β
  | [], _ => none
  | p :: ps, k => if p.1 = k then some p.2 else alookup ps k

/-- In-place update of the first occurrence, appending when absent
(Python dict write: existing keys keep their position, new keys go last). -/
def setAssoc {β : Type} : List (String × β) → String → β → List (String × β)
  | [], k, b => [(k, b)]
  | p :: ps, k, b => if p.1 = k then (k, b) :: ps else p :: setAssoc ps k b

/-- Substring test on character lists (Python `needle in haystack`). -/
def substrB : List Char → List Char → Bool
  | needle, [] => needle.isEmpty
  | needle, c :: rest => needle.isPrefixOf (c :: rest) || substrB needle rest

/-- Python `needle in hay` on strings. -/
def strContains (hay needle : String) : Bool := substrB needle.data hay.data

/-- Drop a suffix from a character list when present
(Python `s.endswith(suf)` + `s[:-len(suf)]`). -/
def stripSuffixL (l suf : List Char) : List Char :=
  if suf.isSuffixOf l then l.take (l.length - suf.length) else l

/-! ## Configuration (app/config settings fields used by the modelled code) -/

/-- The settings fields consumed by the modelled operations. -/
structure Settings where
  proModels : List String
  proModelMaxUsage : Int
  nonProModelMaxUsage : Int
  poolMinThreshold : Nat
  emergencyRefillCount : Nat
  geminiQuotaResetHour : Nat
  tzOffsetMinutes : Int

/-! ## ValidKeyWithTTL (valid_key_models.py) -/

/-- Pool entry: `ValidKeyWithTTL`. `created_at`/`expires_at` are instants of the
naive TTL clock; `ttl_hours` and `max_usage_count` are omitted (the pool always
constructs entries with the model-independent default `max_usage_count = -1` and
never reads `ttl_hours` back). -/
structure ValidKeyWithTTL where
  key : String
  created_at : Int
  expires_at : Int
  usage_count : Nat
deriving DecidableEq, Repr

/-- `ValidKeyWithTTL.is_expired`: `datetime.now() > self.expires_at`. -/
def ValidKeyWithTTL.is_expired (e : ValidKeyWithTTL) (nowTtl : Int) : Bool :=
  decide (e.expires_at < nowTtl)

/-- `ValidKeyWithTTL.increment_usage`. -/
def ValidKeyWithTTL.increment_usage (e : ValidKeyWithTTL) : ValidKeyWithTTL :=
  { e with usage_count := e.usage_count + 1 }

/-! ## KeyManager state (key_manager.py) -/

/-- The KeyManager fields touched by the modelled operations.
`key_model_status` maps credential to a dict from model name to the absolute
UTC cooldown expiry. -/
structure KMState where
  api_keys : List String
  valid_api_keys : List String
  key_index : Nat
  key_failure_counts : List (String × Nat)
  key_model_status : List (String × List (String × Int))
  maxFailures : Nat
deriving DecidableEq, Repr

/-- `KeyManager.is_key_valid` (Bool form; a credential absent from the counts
dict raises KeyError in Python and is treated as invalid here, which only
matters for keys outside `api_keys`). -/
def KMState.is_key_valid (s : KMState) (k : String) : Bool :=
  match alookup s.key_failure_counts k with
  | some c => decide (c < s.maxFailures)
  | none => false

/-- `KeyManager.mark_key_as_failed`: set the count to MAX_FAILURES and drop the
key from the valid list (first occurrence, as Python `list.remove`). -/
def KMState.mark_key_as_failed (s : KMState) (k : String) : KMState :=
  match alookup s.key_failure_counts k with
  | some _ =>
      { s with key_failure_counts := setAssoc s.key_failure_counts k s.maxFailures,
               valid_api_keys := s.valid_api_keys.erase k }
  | none => s

/-- `KeyManager.handle_api_failure` (the locked mutation only; the trailing
`get_next_working_key` call does not touch counts or the valid list).
Returns `none` when the key is absent from the counts dict, where the source
raises KeyError. -/
def KMState.handle_api_failure (s : KMState) (k : String) : Option KMState :=
  match alookup s.key_failure_counts k with
  | none => none
  | some c =>
      let c1 := c + 1
      let valid1 := if s.maxFailures ≤ c1 then s.valid_api_keys.erase k else s.valid_api_keys
      some { s with key_failure_counts := setAssoc s.key_failure_counts k c1,
                    valid_api_keys := valid1 }

/-- `KeyManager.reset_key_failure_count`: zero the count and re-append the key
to the valid list when missing. Second component is the returned Bool. -/
def KMState.reset_key_failure_count (s : KMState) (k : String) : KMState × Bool :=
  match alookup s.key_failure_counts k with
  | some _ =>
      let valid1 := if k ∈ s.valid_api_keys then s.valid_api_keys else s.valid_api_keys ++ [k]
      ({ s with key_failure_counts := setAssoc s.key_failure_counts k 0,
                valid_api_keys := valid1 }, true)
  | none => (s, false)

/-- `KeyManager.reset_failure_counts`: zero every count; the valid list is not
touched. -/
def KMState.reset_failure_counts (s : KMState) : KMState :=
  { s with key_failure_counts := s.key_failure_counts.map (fun p => (p.1, 0)) }

/-- `KeyManager.remove_key`, the KeyManager-owned fields (the pool part is
modelled on the pool state separately). -/
def KMState.remove_key (s : KMState) (k : String) : KMState :=
  if k ∈ s.api_keys then
    let valid1 := s.valid_api_keys.erase k
    { s with api_keys := s.api_keys.erase k,
             valid_api_keys := valid1,
             key_failure_counts := s.key_failure_counts.filter (fun p => p.1 ≠ k),
             key_model_status := s.key_model_status.filter (fun p => p.1 ≠ k),
             key_index := if valid1.length ≤ s.key_index ∧ valid1 ≠ [] then 0 else s.key_index }
  else s

/-! ## Per-model cooldown (mark_key_model_as_cooling) -/

/-- A wall-clock instant in the configured timezone, at minute granularity:
`day` counts days, `minute` is the minute of the day (0 ≤ minute < 1440). -/
structure LocalTime where
  day : Nat
  minute : Nat
deriving DecidableEq, Repr

/-- Minutes since the local epoch. -/
def LocalTime.abs (t : LocalTime) : Nat := t.day * 1440 + t.minute

/-- Convert a local wall-clock instant to an absolute UTC instant
(`astimezone(pytz.utc)`): subtract the zone offset. -/
def LocalTime.toUtc (t : LocalTime) (offsetMin : Int) : Int :=
  (t.abs : Int) - offsetMin

/-- The next reset instant computed by `mark_key_model_as_cooling`:
`now.replace(hour=reset_hour, minute=0, ...)`, plus one day when `now` has
already reached it. -/
def nextResetLocal (now : LocalTime) (resetHour : Nat) : LocalTime :=
  if resetHour * 60 ≤ now.minute then ⟨now.day + 1, resetHour * 60⟩
  else ⟨now.day, resetHour * 60⟩

/-- `KeyManager.mark_key_model_as_cooling`: store the next reset instant,
converted to UTC, under `key_model_status[key][model]`. -/
def KMState.mark_key_model_as_cooling (s : KMState) (st : Settings) (nowLocal : LocalTime)
    (k m : String) : KMState :=
  let t := (nextResetLocal nowLocal st.geminiQuotaResetHour).toUtc st.tzOffsetMinutes
  let cur := (alookup s.key_model_status k).getD []
  { s with key_model_status := setAssoc s.key_model_status k (setAssoc cur m t) }

/-! ## Round-robin fallback (_original_get_next_working_key) -/

/-- Cooldown test of `_original_get_next_working_key`:
`key_model_status.get(key, {}).get(model)` compared against utc now. -/
def kmCooldownFor (s : KMState) (nowUtc : Int) (k : String) : Option String → Bool
  | none => false
  | some m =>
      match alookup s.key_model_status k with
      | none => false
      | some sts =>
          match alookup sts m with
          | none => false
          | some expiry => decide (nowUtc < expiry)

/-- The for-loop of `_original_get_next_working_key`: scan at most
`fuel = |valid|` entries starting at `key_index`, skipping per-model cooldowns;
when the scan wraps to `start_index` the (cooled) entry there is returned
without advancing. Returns the chosen key and the new `key_index`. -/
def originalLoop (s : KMState) (model : Option String) (nowUtc : Int)
    (startIndex : Nat) : Nat → Nat → String × Nat
  | 0, keyIndex =>
      -- the for-loop always returns before exhausting its range; the source's
      -- trailing `return api_keys[0]` fallback is kept for totality
      (s.api_keys.headD "", keyIndex)
  | fuel + 1, keyIndex =>
      let currentKey := s.valid_api_keys.getD keyIndex ""
      if kmCooldownFor s nowUtc currentKey model then
        let ki := (keyIndex + 1) % s.valid_api_keys.length
        if ki = startIndex then (s.valid_api_keys.getD ki "", ki)
        else originalLoop s model nowUtc startIndex fuel ki
      else (currentKey, (keyIndex + 1) % s.valid_api_keys.length)

/-- `KeyManager._original_get_next_working_key`: returns the chosen key and the
updated `key_index`. -/
def KMState.original_get_next_working_key (s : KMState) (model : Option String)
    (nowUtc : Int) : String × Nat :=
  if s.valid_api_keys = [] then
    (if s.api_keys ≠ [] then (s.api_keys.headD "", s.key_index) else ("", s.key_index))
  else
    originalLoop s model nowUtc s.key_index s.valid_api_keys.length s.key_index

/-! ## ValidKeyPool state (valid_key_pool.py) -/

/-- The ValidKeyPool fields touched by the modelled operations.  The deque
`valid_keys` is a list (head = deque left); `_pool_keys_set` is a set of
credentials.  Of the `stats` dict only the counters the claims mention are
kept. -/
structure PoolState where
  pool_size : Nat
  valid_keys : List ValidKeyWithTTL
  pool_keys_set : Finset String
  stat_expired_keys_removed : Nat
  stat_usage_exhausted_keys_removed : Nat
deriving DecidableEq

/-- Combined system state: the KeyManager and its ValidKeyPool. -/
structure SysState where
  km : KMState
  pool : PoolState
deriving DecidableEq

/-- `ValidKeyPool._is_pro_model`: strip the suffixes `-search`, `-image`,
`-non-thinking` in that order, then test whether any configured pro-model name
occurs as a substring (`pro_model in clean_model`). -/
def is_pro_model (st : Settings) : Option String → Bool
  | none => false
  | some m =>
      if m = "" then false
      else
        let c1 := stripSuffixL m.data "-search".data
        let c2 := stripSuffixL c1 "-image".data
        let c3 := stripSuffixL c2 "-non-thinking".data
        st.proModels.any (fun p => substrB p.data c3)

/-- `ValidKeyPool._get_max_usage_for_model`. -/
def get_max_usage_for_model (st : Settings) (m : Option String) : Int :=
  if is_pro_model st m then st.proModelMaxUsage else st.nonProModelMaxUsage

/-- The usage-limit test of `_get_key_from_pool_with_checks`:
`max_usage > 0 and usage_count >= max_usage`. -/
def usageLimitReached (cap : Int) (e : ValidKeyWithTTL) : Bool :=
  decide (0 < cap) && decide (cap ≤ (e.usage_count : Int))

/-- `ValidKeyPool._is_key_usable`: not expired, and no model of
`key_model_status[key]` has an unexpired cooldown (the requested model is
ignored by the source). An missing or empty status dict means usable. -/
def is_key_usable (km : KMState) (nowTtl nowUtc : Int) (e : ValidKeyWithTTL) : Bool :=
  if e.is_expired nowTtl then false
  else
    match alookup km.key_model_status e.key with
    | none => true
    | some sts => !(sts.any (fun p => decide (nowUtc < p.2)))

/-- Result of the checkout loop `_get_key_from_pool_with_checks`:
`returned = none` means the pool was exhausted and the emergency path runs. -/
structure CheckoutRes where
  returned : Option ValidKeyWithTTL
  pool : List ValidKeyWithTTL
  pset : Finset String
  exhausted : Nat
  expired : Nat
deriving DecidableEq

/-- The `while self.valid_keys` loop of `_get_key_from_pool_with_checks`:
pop from the left, discard from the set; a usable, non-exhausted entry has its
usage incremented (when `increment_usage`), is pushed back on the right and
returned; exhausted entries bump the usage-exhausted counter; unusable expired
entries bump the expired counter.  (The refill tasks spawned on eviction are
separate background operations and modelled as such.) -/
def get_key_from_pool_with_checks (st : Settings) (km : KMState) (nowTtl nowUtc : Int)
    (model : Option String) (inc : Bool) :
    List ValidKeyWithTTL → Finset String → Nat → Nat → CheckoutRes
  | [], pset, ex, xp => ⟨none, [], pset, ex, xp⟩
  | e :: rest, pset, ex, xp =>
      let pset1 := pset.erase e.key
      if is_key_usable km nowTtl nowUtc e then
        if usageLimitReached (get_max_usage_for_model st model) e then
          get_key_from_pool_with_checks st km nowTtl nowUtc model inc rest pset1 (ex + 1) xp
        else
          let e2 := if inc then e.increment_usage else e
          ⟨some e2, rest ++ [e2], insert e2.key pset1, ex, xp⟩
      else
        get_key_from_pool_with_checks st km nowTtl nowUtc model inc rest pset1 ex
          (if e.is_expired nowTtl then xp + 1 else xp)

/-- `ValidKeyPool._remove_expired_keys`: pop every entry, discarding each key
from the set; keep the unexpired entries in order and re-add their keys to the
set; count the expired ones.  (The background re-validation tasks spawned for
expired keys are modelled as separate `revalidate_and_readd_key` steps.) -/
def remove_expired_keys (nowTtl : Int) (p : PoolState) : PoolState :=
  let emptied := p.valid_keys.foldl (fun s e => s.erase e.key) p.pool_keys_set
  let kept := p.valid_keys.filter (fun e => !(e.is_expired nowTtl))
  let expiredCount := p.valid_keys.length - kept.length
  { p with valid_keys := kept,
           pool_keys_set := kept.foldl (fun s e => insert e.key s) emptied,
           stat_expired_keys_removed := p.stat_expired_keys_removed + expiredCount }

/-- `ValidKeyPool.get_valid_key`: sweep expired entries, then run the checkout
loop; on an exhausted pool the emergency path immediately returns a fallback
credential from `_original_get_next_working_key` (advancing the KeyManager
cursor) and schedules a background refill (modelled separately). -/
def get_valid_key (st : Settings) (nowTtl nowUtc : Int) (model : Option String)
    (inc : Bool) (s : SysState) : String × SysState :=
  let p1 := remove_expired_keys nowTtl s.pool
  let r := get_key_from_pool_with_checks st s.km nowTtl nowUtc model inc
    p1.valid_keys p1.pool_keys_set p1.stat_usage_exhausted_keys_removed
    p1.stat_expired_keys_removed
  let p2 := { p1 with valid_keys := r.pool, pool_keys_set := r.pset,
                      stat_usage_exhausted_keys_removed := r.exhausted,
                      stat_expired_keys_removed := r.expired }
  match r.returned with
  | some e => (e.key, { s with pool := p2 })
  | none =>
      let (k, idx) := s.km.original_get_next_working_key model nowUtc
      (k, { km := { s.km with key_index := idx }, pool := p2 })

/-- Append loop shared by the two emergency-refill paths: for each verified
credential, stop (`break`) when the pool is full, otherwise append a fresh
entry and add the key to the set. -/
def addVerifiedKeys (freshAt : String → Int × Int) (poolSize : Nat) :
    List String → List ValidKeyWithTTL → Finset String → List ValidKeyWithTTL × Finset String
  | [], pool, pset => (pool, pset)
  | k :: rest, pool, pset =>
      if poolSize ≤ pool.length then (pool, pset)
      else
        let e : ValidKeyWithTTL := ⟨k, (freshAt k).1, (freshAt k).2, 0⟩
        addVerifiedKeys freshAt poolSize rest (pool ++ [e]) (insert k pset)

/-- `ValidKeyPool.emergency_refill_async`.  `pick avail n` stands for
`random.sample(avail, n)` and `verOk` for the outcome of
`_verify_key_for_emergency`; `freshAt` gives the created/expiry instants of a
fresh `ValidKeyWithTTL`.  Note the candidate list is `api_keys` filtered by
`is_key_valid` only — entries already in the pool are NOT excluded here
(unlike `async_verify_and_add` and `_background_emergency_refill`). -/
def emergency_refill_async (st : Settings) (freshAt : String → Int × Int)
    (pick : List String → Nat → List String) (verOk : String → Bool)
    (s : SysState) : SysState :=
  if st.poolMinThreshold ≤ s.pool.valid_keys.length then s
  else
    let available := s.km.api_keys.filter (fun k => s.km.is_key_valid k)
    if available = [] then s
    else
      let needed := st.poolMinThreshold - s.pool.valid_keys.length
      let refillCount := min st.emergencyRefillCount needed
      let selected := pick available (min refillCount available.length)
      let successes := selected.filter verOk
      let km1 := successes.foldl (fun km k => (km.reset_key_failure_count k).1) s.km
      let (pool1, pset1) := addVerifiedKeys freshAt s.pool.pool_size successes
        s.pool.valid_keys s.pool.pool_keys_set
      { km := km1, pool := { s.pool with valid_keys := pool1, pool_keys_set := pset1 } }

/-- `ValidKeyPool._background_emergency_refill`.  The candidate list excludes
credentials already in the pool (`not self._is_key_in_pool(key)`). -/
def background_emergency_refill (st : Settings) (freshAt : String → Int × Int)
    (pick : List String → Nat → List String) (verOk : String → Bool)
    (s : SysState) : SysState :=
  let available := s.km.api_keys.filter
    (fun k => s.km.is_key_valid k && !(decide (k ∈ s.pool.pool_keys_set)))
  if available = [] then s
  else
    let refillCount := min st.emergencyRefillCount available.length
    let selected := pick available refillCount
    let successes := selected.filter verOk
    let km1 := successes.foldl (fun km k => (km.reset_key_failure_count k).1) s.km
    let (pool1, pset1) := addVerifiedKeys freshAt s.pool.pool_size successes
      s.pool.valid_keys s.pool.pool_keys_set
    { km := km1, pool := { s.pool with valid_keys := pool1, pool_keys_set := pset1 } }

/-- `ValidKeyPool.async_verify_and_add`: verify one credential chosen from the
keys that are neither pooled nor in flight, and append it when the pool still
has room.  The chosen credential and the verification outcome are parameters;
a successful `_verify_key` also resets the failure count. -/
def async_verify_and_add (freshAt : String → Int × Int) (selectedKey : String)
    (verOk : Bool) (s : SysState) : SysState :=
  if s.pool.pool_size ≤ s.pool.valid_keys.length then s
  else if verOk then
    let km1 := (s.km.reset_key_failure_count selectedKey).1
    if s.pool.pool_size ≤ s.pool.valid_keys.length then { s with km := km1 }
    else
      let e : ValidKeyWithTTL := ⟨selectedKey, (freshAt selectedKey).1, (freshAt selectedKey).2, 0⟩
      { km := km1,
        pool := { s.pool with valid_keys := s.pool.valid_keys ++ [e],
                              pool_keys_set := insert selectedKey s.pool.pool_keys_set } }
  else s

/-- `ValidKeyPool.remove_key`: rebuild the deque without the key; when anything
was removed, also discard the key from the set.  (The triggered refill is a
separate background operation.) -/
def PoolState.remove_key (p : PoolState) (k : String) : PoolState :=
  let newKeys := p.valid_keys.filter (fun e => e.key ≠ k)
  if newKeys.length < p.valid_keys.length then
    { p with valid_keys := newKeys, pool_keys_set := p.pool_keys_set.erase k }
  else p

/-- `KeyManager.remove_key_from_pool`: same filter, but a falsy (empty) deque
short-circuits the whole operation. -/
def remove_key_from_pool (p : PoolState) (k : String) : PoolState :=
  if p.valid_keys = [] then p
  else
    let filtered := p.valid_keys.filter (fun e => e.key ≠ k)
    if filtered.length < p.valid_keys.length then
      { p with valid_keys := filtered, pool_keys_set := p.pool_keys_set.erase k }
    else p

/-! ## The pool invariant of claim C3 -/

/-- The three conjuncts of the claimed pool invariant: the auxiliary set
mirrors the pooled credentials, the pool is bounded by its capacity, and no
credential is pooled twice. -/
def poolInv (p : PoolState) : Prop :=
  p.pool_keys_set = (p.valid_keys.map ValidKeyWithTTL.key).toFinset ∧
  p.valid_keys.length ≤ p.pool_size ∧
  (p.valid_keys.map ValidKeyWithTTL.key).Nodup

instance (p : PoolState) : Decidable (poolInv p) := by
  unfold poolInv; infer_instance

/-! ## Error processor (error_processor.py, handle_api_error_and_get_next_key) -/

/-- The string-matching error classification of
`handle_api_error_and_get_next_key`. -/
structure ErrClass where
  is429 : Bool
  isAuth : Bool
  isClient : Bool
  isServer : Bool
  isServiceUnavailable : Bool
  isTimeout : Bool

/-- Classify `str(error)` by substring tests, as the source does. -/
def classifyError (errStr : String) : ErrClass where
  is429 := strContains errStr "429"
  isAuth := strContains errStr "401" || strContains errStr "403"
  isClient := strContains errStr "400" || strContains errStr "404" || strContains errStr "422"
  isServer := strContains errStr "500" || strContains errStr "502" || strContains errStr "504"
  isServiceUnavailable := strContains errStr "503"
  isTimeout := strContains errStr "408"

/-- Step 1 of `handle_api_error_and_get_next_key` (the part that mutates the
key state; the final `get_next_working_key` call is step 3 and does not touch
counts, cooldowns or the pool).  `none` encodes the KeyError that
`handle_api_failure` raises on an unknown key in the final branch. -/
def handleApiErrorStep1 (st : Settings) (nowLocal : LocalTime) (errStr oldKey : String)
    (modelName : Option String) (source : String) (s : SysState) : Option SysState :=
  let c := classifyError errStr
  let isFatal := c.isAuth || c.isClient
  let isRetryable := c.isServer || c.isServiceUnavailable || c.isTimeout
  if c.is429 then
    match modelName with
    | some m =>
        let s1 := { s with km := s.km.mark_key_model_as_cooling st nowLocal oldKey m }
        if source ≠ "key_validation" then
          some { s1 with pool := remove_key_from_pool s1.pool oldKey }
        else some s1
    | none => some { s with km := s.km.mark_key_as_failed oldKey }
  else if isFatal then
    some { s with km := s.km.mark_key_as_failed oldKey }
  else if isRetryable then
    if source ≠ "key_validation" then
      some { s with pool := remove_key_from_pool s.pool oldKey }
    else some s
  else
    match s.km.handle_api_failure oldKey with
    | some km1 => some { s with km := km1 }
    | none => none

/-! ## KeyManager construction (claim C1) -/

/-- The module-level names defined by `app/handler/error_processor.py`
(its imports and its two top-level functions).  No class `ErrorProcessor`
is among them. -/
def errorProcessorModuleNames : List String :=
  ["re", "Any", "Dict", "get_gemini_logger", "KeyManager", "add_error_log",
   "redact_key_for_logging", "logger",
   "handle_api_error_and_get_next_key", "log_api_error"]

/-- `from app.handler.error_processor import ErrorProcessor`
(executed at import time of valid_key_pool.py): succeeds only when the module
defines that name. -/
def importErrorProcessorClass : Except String Unit :=
  if "ErrorProcessor" ∈ errorProcessorModuleNames then Except.ok ()
  else Except.error "ImportError: cannot import name ErrorProcessor"

/-- The attempt of `KeyManager.__init__` to build the pool.  Importing the
`ValidKeyPool` module re-raises the `ErrorProcessor` import error; were
that import to succeed, the constructor call
`ValidKeyPool(pool_size=..., ttl_hours=..., key_manager=self)` still omits the
required `error_processor` parameter and raises TypeError. -/
def tryCreateValidKeyPool (_poolSize : Nat) : Except String PoolState :=
  match importErrorProcessorClass with
  | Except.error e => Except.error e
  | Except.ok _ =>
      Except.error "TypeError: ValidKeyPool() missing required argument error_processor"

/-- A freshly constructed KeyManager: the KMState fields plus the optional
pool. -/
structure KeyManagerInit where
  km : KMState
  valid_key_pool : Option PoolState
deriving DecidableEq

/-- `KeyManager.__init__`: counts start at zero, the valid list is a copy of
`api_keys`; when the pool feature is on and keys exist, the pool construction
is attempted inside try/except and any exception leaves `valid_key_pool`
as None. -/
def mkKeyManager (validKeyPoolEnabled : Bool) (apiKeys : List String)
    (maxFailures poolSize : Nat) : KeyManagerInit :=
  let km : KMState :=
    { api_keys := apiKeys, valid_api_keys := apiKeys, key_index := 0,
      key_failure_counts := apiKeys.map (fun k => (k, 0)),
      key_model_status := [], maxFailures := maxFailures }
  let pool :=
    if validKeyPoolEnabled ∧ apiKeys ≠ [] then
      match tryCreateValidKeyPool poolSize with
      | Except.ok p => some p
      | Except.error _ => none
    else none
  ⟨km, pool⟩

/-- `KeyManager.get_next_working_key`: the pool path when `valid_key_pool` is
set, otherwise the `_original_get_next_working_key` fallback. -/
def getNextWorkingKey (st : Settings) (nowTtl nowUtc : Int) (i : KeyManagerInit)
    (model : Option String) : String × Nat :=
  match i.valid_key_pool with
  | some p =>
      let (k, s1) := get_valid_key st nowTtl nowUtc model true ⟨i.km, p⟩
      (k, s1.km.key_index)
  | none => i.km.original_get_next_working_key model nowUtc

/-! ## Stream retry engine (stream_retry_handler.py) -/

/-- The FINAL_PUNCTUATION set of the source, as characters.  The escaped code
points are: 125 closing brace, 34 double quote, 39 apostrophe, 96 backtick,
10 newline. -/
def FINAL_PUNCTUATION : List Char :=
  ['.', '?', '!', '。', '？', '！', Char.ofNat 125, ']', ')', Char.ofNat 34,
   Char.ofNat 39, '”', '’', Char.ofNat 96, Char.ofNat 10]

/-- Whitespace for Python `str.strip` (space, tab, newline, carriage return,
vertical tab, form feed). -/
def isPySpace (c : Char) : Bool :=
  c = ' ' || c = '\t' || c.toNat = 10 || c.toNat = 13 || c.toNat = 11 || c.toNat = 12

/-- Python `str.strip()` on a character list. -/
def pyStrip (l : List Char) : List Char :=
  ((l.dropWhile isPySpace).reverse.dropWhile isPySpace).reverse

/-- Whether `trimmed_text[-1:]` is in FINAL_PUNCTUATION (false on an empty
list, matching the empty slice). -/
def lastCharInFinalPunct (l : List Char) : Bool :=
  match l.getLast? with
  | some c => FINAL_PUNCTUATION.contains c
  | none => false

/-- One parsed SSE line, at the granularity the loop consumes:
`text`/`is_thought` as produced by `parse_line_content` (empty/false for
non-data lines), `finishReason` as the truthy result of
`extract_finish_reason`, `blocked` as `is_blocked_line`. -/
structure Chunk where
  text : List Char
  is_thought : Bool
  finishReason : Option String
  blocked : Bool
deriving DecidableEq, Repr

/-- Per-session mutable state of the stream loop. -/
structure AttemptState where
  accumulated : List Char
  is_outputting_formal_text : Bool
  swallow_mode_active : Bool
deriving DecidableEq, Repr

/-- Outcome of one stream attempt: final state, the lines forwarded to the
client, the interruption reason (if any) and the clean-exit flag. -/
structure AttemptResult where
  endState : AttemptState
  yielded : List Chunk
  interruption : Option String
  clean_exit : Bool
deriving DecidableEq, Repr

/-- The inline incompleteness test of the `finish_reason == "STOP"` branch:
`not (len(trimmed) == 0 or last_char in FINAL_PUNCTUATION)` where
`trimmed = (accumulated_text + text_chunk).strip()`. -/
def stopIncomplete (accumulated textChunk : List Char) : Bool :=
  let trimmed := pyStrip (accumulated ++ textChunk)
  !(trimmed.isEmpty || lastCharInFinalPunct trimmed)

/-- `finish_reason and finish_reason not in ("MAX_TOKENS", "STOP")`. -/
def abnormalFinish : Option String → Bool
  | some r => !(r == "MAX_TOKENS" || r == "STOP")
  | none => false

/-- The `async for line in sse_line_iterator(...)` loop body.  The swallow
filter drops thought chunks (classifying FINISH_DURING_THOUGHT when one
carries a finish reason) and is deactivated by the first non-thought chunk,
which then goes through the normal chain: finish-on-thought, blocked,
incomplete STOP, abnormal finish — any of which break before the line is
yielded; otherwise the line is yielded, formal text is accumulated, and a
STOP/MAX_TOKENS reason ends the attempt cleanly. -/
def processLines : List Chunk → AttemptState → List Chunk → AttemptResult
  | [], st, out => ⟨st, out, none, false⟩
  | c :: rest, st, out =>
      if st.swallow_mode_active ∧ c.is_thought then
        match c.finishReason with
        | some _ => ⟨st, out, some "FINISH_DURING_THOUGHT", false⟩
        | none => processLines rest st out
      else
        let st0 := if st.swallow_mode_active then { st with swallow_mode_active := false } else st
        if c.finishReason.isSome ∧ c.is_thought then
          ⟨st0, out, some "FINISH_DURING_THOUGHT", false⟩
        else if c.blocked then
          ⟨st0, out, some "BLOCK", false⟩
        else if c.finishReason = some "STOP" ∧ stopIncomplete st0.accumulated c.text then
          ⟨st0, out, some "FINISH_INCOMPLETE", false⟩
        else if abnormalFinish c.finishReason then
          ⟨st0, out, some "FINISH_ABNORMAL", false⟩
        else
          let out1 := out ++ [c]
          let st1 :=
            if c.text ≠ [] ∧ c.is_thought = false then
              { st0 with accumulated := st0.accumulated ++ c.text,
                         is_outputting_formal_text := true }
            else st0
          if c.finishReason = some "STOP" ∨ c.finishReason = some "MAX_TOKENS" then
            ⟨st1, out1, none, true⟩
          else processLines rest st1 out1

/-- One stream attempt: run the loop; a stream that ends with neither a clean
exit nor an interruption is classified DROP. -/
def runAttempt (chunks : List Chunk) (st : AttemptState) : AttemptResult :=
  let r := processLines chunks st []
  if ¬ r.clean_exit ∧ r.interruption = none then { r with interruption := some "DROP" }
  else r

/-- The final completeness check applied even to a clean exit: when formal
text was accumulated and its stripped form does not end in FINAL_PUNCTUATION,
CLEAN is downgraded to FINISH_INCOMPLETE. -/
def finalCompletenessGuard (r : AttemptResult) : AttemptResult :=
  if r.clean_exit ∧ r.endState.accumulated ≠ [] then
    if lastCharInFinalPunct (pyStrip r.endState.accumulated) then r
    else { r with clean_exit := false, interruption := some "FINISH_INCOMPLETE" }
  else r

/-- What the session does after an attempt (post guard): return to the caller
on a clean exit, otherwise activate swallow mode when configured and formal
text was already emitted, then either fail with the 504 error event (budget
exhausted) or start a retry with the updated state. -/
inductive SessionDecision where
  | completed
  | retryWith (st : AttemptState)
  | failError504 (lastReason : Option String)
deriving DecidableEq, Repr

/-- The decision logic following one attempt in
`process_stream_and_retry_internally`. -/
def sessionDecide (swallowThoughts : Bool) (maxRetries consecutiveRetryCount : Nat)
    (r : AttemptResult) : SessionDecision :=
  if r.clean_exit then SessionDecision.completed
  else
    let st1 :=
      if swallowThoughts ∧ r.endState.is_outputting_formal_text then
        { r.endState with swallow_mode_active := true }
      else r.endState
    if maxRetries ≤ consecutiveRetryCount then SessionDecision.failError504 r.interruption
    else SessionDecision.retryWith st1

/-! ## build_retry_request_body (stream_retry_handler.py) -/

/-- One element of a `parts` array (only `text` is ever written by the
engine). -/
structure GPart where
  text : String
deriving DecidableEq, Repr

/-- One turn of `contents`: a `role` (absent keys read as None via `.get`)
and its parts. -/
structure Turn where
  role : Option String
  parts : List GPart
deriving DecidableEq, Repr

/-- A request body: the `contents` key (possibly absent) plus all other
top-level fields, kept opaque. -/
structure ReqBody where
  contents : Option (List Turn)
  extra : List (String × String)
deriving DecidableEq, Repr

/-- The canonical continuation instruction. -/
def continuePrompt : String :=
  "Continue exactly where you left off without any preamble or repetition."

/-- The two synthetic turns spliced in by a retry. -/
def retryHistory (accumulatedText : String) : List Turn :=
  [⟨some "model", [⟨accumulatedText⟩]⟩, ⟨some "user", [⟨continuePrompt⟩]⟩]

/-- Index of the last turn whose role is "user" (the reverse scan
`for i in range(len(contents)-1, -1, -1)`). -/
def findLastUserIdx : List Turn → Option Nat
  | [] => none
  | t :: ts =>
      match findLastUserIdx ts with
      | some j => some (j + 1)
      | none => if t.role = some "user" then some 0 else none

/-- `build_retry_request_body`: deep-copy the body (the identity on values),
default a missing `contents` to `[]`, and splice the two synthetic turns
right after the last user turn — at the tail when no user turn exists. -/
def build_retry_request_body (body : ReqBody) (accumulatedText : String) : ReqBody :=
  let contents := body.contents.getD []
  match findLastUserIdx contents with
  | some j =>
      let spliced := contents.take (j + 1) ++ retryHistory accumulatedText ++ contents.drop (j + 1)
      { body with contents := some spliced }
  | none =>
      { body with contents := some (contents ++ retryHistory accumulatedText) }

/-! ## Association-list lemmas -/

theorem alookup_setAssoc_self {β : Type} (l : List (String × β)) (k : String) (b : β) :
    alookup (setAssoc l k b) k = some b := by
  induction l with
  | nil => simp [setAssoc, alookup]
  | cons p ps ih =>
      by_cases h : p.1 = k
      · simp [setAssoc, h, alookup]
      · simp [setAssoc, h, alookup, ih]

theorem alookup_setAssoc_ne {β : Type} (l : List (String × β)) (k k' : String) (b : β)
    (h : k' ≠ k) : alookup (setAssoc l k b) k' = alookup l k' := by
  have h2 : k ≠ k' := Ne.symm h
  induction l with
  | nil => simp [setAssoc, alookup, h2]
  | cons p ps ih =>
      by_cases hp : p.1 = k
      · have hp' : p.1 ≠ k' := by rw [hp]; exact h2
        simp [setAssoc, hp, alookup, hp', h2]
      · by_cases hp' : p.1 = k'
        · simp [setAssoc, hp, alookup, hp', h]
        · simp [setAssoc, hp, alookup, hp', ih]

theorem alookup_mem {β : Type} {l : List (String × β)} {k : String} {b : β}
    (h : alookup l k = some b) : (k, b) ∈ l := by
  induction l with
  | nil => simp [alookup] at h
  | cons p ps ih =>
      obtain ⟨pa, pb⟩ := p
      by_cases hp : pa = k
      · simp [alookup, hp] at h
        subst hp; subst h
        exact List.mem_cons_self _ _
      · simp [alookup, hp] at h
        exact List.mem_cons_of_mem _ (ih h)

theorem mem_setAssoc {β : Type} {l : List (String × β)} {k : String} {b : β} {p : String × β}
    (h : p ∈ setAssoc l k b) : p = (k, b) ∨ p ∈ l := by
  induction l with
  | nil => simp [setAssoc] at h; left; exact h
  | cons q qs ih =>
      by_cases hq : q.1 = k
      · simp only [setAssoc, if_pos hq, List.mem_cons] at h
        rcases h with h | h
        · left; exact h
        · right; exact List.mem_cons_of_mem _ h
      · simp only [setAssoc, if_neg hq, List.mem_cons] at h
        rcases h with h | h
        · right; simp [h]
        · rcases ih h with h1 | h1
          · left; exact h1
          · right; exact List.mem_cons_of_mem _ h1

theorem mem_setAssoc_of_fst_ne {β : Type} {l : List (String × β)} {k : String} {b : β}
    {p : String × β} (h : p ∈ setAssoc l k b) (hne : p.1 ≠ k) : p ∈ l := by
  rcases mem_setAssoc h with h1 | h1
  · subst h1; exact absurd rfl hne
  · exact h1

theorem mem_setAssoc_fst_eq {β : Type} {l : List (String × β)} {k : String} {b : β}
    {p : String × β} (hnd : (l.map Prod.fst).Nodup) (h : p ∈ setAssoc l k b)
    (hfst : p.1 = k) : p = (k, b) := by
  induction l with
  | nil => simp [setAssoc] at h; exact h
  | cons q qs ih =>
      simp only [List.map_cons, List.nodup_cons] at hnd
      by_cases hq : q.1 = k
      · simp only [setAssoc, if_pos hq, List.mem_cons] at h
        rcases h with h | h
        · exact h
        · exfalso
          apply hnd.1
          rw [hq, ← hfst]
          exact List.mem_map_of_mem Prod.fst h
      · simp only [setAssoc, if_neg hq, List.mem_cons] at h
        rcases h with h | h
        · exfalso; apply hq; rw [← hfst, h]
        · exact ih hnd.2 h

theorem alookup_filter_fst_ne {β : Type} (l : List (String × β)) (k k' : String)
    (h : k' ≠ k) :
    alookup (l.filter (fun p => p.1 ≠ k)) k' = alookup l k' := by
  simp only [ne_eq, decide_not]
  induction l with
  | nil => simp [alookup]
  | cons p ps ih =>
      by_cases hp : p.1 = k
      · have hp' : p.1 ≠ k' := by rw [hp]; exact Ne.symm h
        simp [List.filter_cons, hp, alookup, hp', ih, Ne.symm h]
      · by_cases hp' : p.1 = k'
        · simp [List.filter_cons, hp, alookup, hp', h]
        · simp [List.filter_cons, hp, alookup, hp', ih]

/-! ## Claim C1: the pool is never constructed -/

/-- C1: with the pool feature enabled and a non-empty key list, the pool
construction attempt always raises (the `ErrorProcessor` import fails since
error_processor.py defines no such class; the constructor call would also be
missing its required `error_processor` argument), the exception is swallowed
leaving `valid_key_pool = None`, and therefore every `get_next_working_key`
call takes the `_original_get_next_working_key` round-robin fallback path. -/
theorem C1_pool_never_constructed (apiKeys : List String) (hne : apiKeys ≠ [])
    (maxFailures poolSize : Nat) (st : Settings) (nowTtl nowUtc : Int)
    (model : Option String) :
    (mkKeyManager true apiKeys maxFailures poolSize).valid_key_pool = none ∧
    getNextWorkingKey st nowTtl nowUtc (mkKeyManager true apiKeys maxFailures poolSize) model =
      (mkKeyManager true apiKeys maxFailures poolSize).km.original_get_next_working_key
        model nowUtc := by
  have hpool : (mkKeyManager true apiKeys maxFailures poolSize).valid_key_pool = none := by
    simp [mkKeyManager, tryCreateValidKeyPool, importErrorProcessorClass,
      errorProcessorModuleNames, hne]
  refine ⟨hpool, ?_⟩
  simp [getNextWorkingKey, hpool]

/-- C1 witness at a concrete two-key configuration. -/
theorem C1_witness :
    (["k1", "k2"] ≠ ([] : List String)) ∧
    ((mkKeyManager true ["k1", "k2"] 3 50).valid_key_pool = none ∧
     getNextWorkingKey ⟨["gemini-pro"], 5, 20, 10, 5, 3, 480⟩ 0 0
       (mkKeyManager true ["k1", "k2"] 3 50) (some "gemini-flash") =
       (mkKeyManager true ["k1", "k2"] 3 50).km.original_get_next_working_key
         (some "gemini-flash") 0) :=
  ⟨by decide,
   C1_pool_never_constructed ["k1", "k2"] (by decide) 3 50
     ⟨["gemini-pro"], 5, 20, 10, 5, 3, 480⟩ 0 0 (some "gemini-flash")⟩

/-! ## Claim C10: markFailed then resetFailure -/

/-- C10 counterexample: with valid list [A, B], marking A failed and then
resetting it re-adds A at the tail, so A ends up after B although it was
before B originally; the failure count is 0 as claimed, but the original
relative ordering is not restored. -/
theorem C10_counterexample :
    (⟨["A", "B"], ["A", "B"], 0, [("A", 0), ("B", 0)], [], 1⟩ : KMState).valid_api_keys
        = ["A", "B"] ∧
    (((⟨["A", "B"], ["A", "B"], 0, [("A", 0), ("B", 0)], [], 1⟩ :
        KMState).mark_key_as_failed "A").reset_key_failure_count "A").1.valid_api_keys
        = ["B", "A"] ∧
    alookup (((⟨["A", "B"], ["A", "B"], 0, [("A", 0), ("B", 0)], [], 1⟩ :
        KMState).mark_key_as_failed "A").reset_key_failure_count "A").1.key_failure_counts
        "A" = some 0 ∧
    (["B", "A"] : List String) ≠ ["A", "B"] := by decide

/-- C10 amended: `markFailed(c); resetFailure(c)` zeroes the failure count and
re-adds `c` to the valid list, but appended at the tail: the result is
`valid.erase c ++ [c]`, so the original position is restored only when `c` was
already last. -/
theorem C10_mark_then_reset_appends (s : KMState) (c : String)
    (_hmem : c ∈ s.valid_api_keys) (hnd : s.valid_api_keys.Nodup)
    (hcnt : (alookup s.key_failure_counts c).isSome) :
    alookup (((s.mark_key_as_failed c).reset_key_failure_count c).1).key_failure_counts c
        = some 0 ∧
    (((s.mark_key_as_failed c).reset_key_failure_count c).1).valid_api_keys =
      s.valid_api_keys.erase c ++ [c] := by
  obtain ⟨c0, hc0⟩ := Option.isSome_iff_exists.mp hcnt
  have hmark : s.mark_key_as_failed c =
      { s with key_failure_counts := setAssoc s.key_failure_counts c s.maxFailures,
               valid_api_keys := s.valid_api_keys.erase c } := by
    unfold KMState.mark_key_as_failed
    rw [hc0]
  have hlook2 : alookup (setAssoc s.key_failure_counts c s.maxFailures) c
      = some s.maxFailures := alookup_setAssoc_self _ _ _
  have hnotmem : c ∉ s.valid_api_keys.erase c := by
    intro hc
    exact ((List.Nodup.mem_erase_iff hnd).mp hc).1 rfl
  rw [hmark]
  unfold KMState.reset_key_failure_count
  simp only [hlook2, if_neg hnotmem]
  exact ⟨alookup_setAssoc_self _ _ _, trivial⟩

/-- C10 witness at the concrete state [A, B, C] with C marked and reset. -/
theorem C10_witness :
    ("C" ∈ (["A", "B", "C"] : List String) ∧ (["A", "B", "C"] : List String).Nodup ∧
     (alookup [("A", 0), ("B", 0), ("C", 0)] "C").isSome = true) ∧
    (alookup ((((⟨["A", "B", "C"], ["A", "B", "C"], 0, [("A", 0), ("B", 0), ("C", 0)], [], 2⟩ :
        KMState).mark_key_as_failed "C").reset_key_failure_count "C").1).key_failure_counts "C"
        = some 0 ∧
     ((((⟨["A", "B", "C"], ["A", "B", "C"], 0, [("A", 0), ("B", 0), ("C", 0)], [], 2⟩ :
        KMState).mark_key_as_failed "C").reset_key_failure_count "C").1).valid_api_keys =
       (["A", "B", "C"] : List String).erase "C" ++ ["C"]) :=
  ⟨⟨by decide, by decide, by decide⟩,
   C10_mark_then_reset_appends
     ⟨["A", "B", "C"], ["A", "B", "C"], 0, [("A", 0), ("B", 0), ("C", 0)], [], 2⟩ "C"
     (by decide) (by decide) (by decide)⟩

/-! ## Claim C4: valid list vs failure counts -/

/-- Bool form of `failCount[k] < MAX_FAILURES`, false outside the dict
domain. -/
def countBelowMaxB (s : KMState) (k : String) : Bool :=
  match alookup s.key_failure_counts k with
  | some c => decide (c < s.maxFailures)
  | none => false

/-- The claimed registry invariant: a credential of the failure-count dict is
in `valid_api_keys` exactly when its count is below MAX_FAILURES. -/
def kmInv (s : KMState) : Prop :=
  (∀ k ∈ s.valid_api_keys, countBelowMaxB s k = true) ∧
  (∀ p ∈ s.key_failure_counts, p.2 < s.maxFailures → p.1 ∈ s.valid_api_keys)

instance (s : KMState) : Decidable (kmInv s) := by
  unfold kmInv; infer_instance

theorem countBelowMaxB_congr (s s' : KMState) (k : String)
    (h1 : alookup s'.key_failure_counts k = alookup s.key_failure_counts k)
    (h2 : s'.maxFailures = s.maxFailures) :
    countBelowMaxB s' k = countBelowMaxB s k := by
  unfold countBelowMaxB
  rw [h1, h2]

theorem kmInv_mark_key_as_failed (s : KMState) (k : String) (hInv : kmInv s)
    (hndv : s.valid_api_keys.Nodup)
    (hndc : (s.key_failure_counts.map Prod.fst).Nodup) :
    kmInv (s.mark_key_as_failed k) := by
  rcases hInv with ⟨h1, h2⟩
  cases hl : alookup s.key_failure_counts k with
  | none =>
      have heq : s.mark_key_as_failed k = s := by
        unfold KMState.mark_key_as_failed; rw [hl]
      rw [heq]; exact ⟨h1, h2⟩
  | some c =>
      have heq : s.mark_key_as_failed k =
          { s with key_failure_counts := setAssoc s.key_failure_counts k s.maxFailures,
                   valid_api_keys := s.valid_api_keys.erase k } := by
        unfold KMState.mark_key_as_failed; rw [hl]
      rw [heq]
      constructor
      · intro k' hk'
        have hk'ne : k' ≠ k := ((List.Nodup.mem_erase_iff hndv).mp hk').1
        have hk'mem : k' ∈ s.valid_api_keys := ((List.Nodup.mem_erase_iff hndv).mp hk').2
        rw [countBelowMaxB_congr s
          { s with key_failure_counts := setAssoc s.key_failure_counts k s.maxFailures,
                   valid_api_keys := s.valid_api_keys.erase k } k'
          (alookup_setAssoc_ne _ _ _ _ hk'ne) rfl]
        exact h1 k' hk'mem
      · intro p hp hplt
        by_cases hpk : p.1 = k
        · have hpe := mem_setAssoc_fst_eq hndc hp hpk
          rw [hpe] at hplt
          exact absurd hplt (by simp)
        · have hpmem := mem_setAssoc_of_fst_ne hp hpk
          exact (List.mem_erase_of_ne hpk).mpr (h2 p hpmem hplt)

theorem kmInv_handle_api_failure (s : KMState) (k : String) (hInv : kmInv s)
    (hndv : s.valid_api_keys.Nodup)
    (hndc : (s.key_failure_counts.map Prod.fst).Nodup) :
    ∀ s', s.handle_api_failure k = some s' → kmInv s' := by
  rcases hInv with ⟨h1, h2⟩
  intro s' hs'
  unfold KMState.handle_api_failure at hs'
  cases hl : alookup s.key_failure_counts k with
  | none => rw [hl] at hs'; exact absurd hs' (by simp)
  | some c =>
      rw [hl] at hs'
      simp only [Option.some.injEq] at hs'
      by_cases hcap : s.maxFailures ≤ c + 1
      · rw [if_pos hcap] at hs'
        subst hs'
        constructor
        · intro k' hk'
          have hk'ne : k' ≠ k := ((List.Nodup.mem_erase_iff hndv).mp hk').1
          have hk'mem : k' ∈ s.valid_api_keys := ((List.Nodup.mem_erase_iff hndv).mp hk').2
          rw [countBelowMaxB_congr s
            { s with key_failure_counts := setAssoc s.key_failure_counts k (c + 1),
                     valid_api_keys := s.valid_api_keys.erase k } k'
            (alookup_setAssoc_ne _ _ _ _ hk'ne) rfl]
          exact h1 k' hk'mem
        · intro p hp hplt
          by_cases hpk : p.1 = k
          · have hpe := mem_setAssoc_fst_eq hndc hp hpk
            rw [hpe] at hplt
            exact absurd hplt (by simp [Nat.not_lt.mpr hcap])
          · have hpmem := mem_setAssoc_of_fst_ne hp hpk
            exact (List.mem_erase_of_ne hpk).mpr (h2 p hpmem hplt)
      · rw [if_neg hcap] at hs'
        subst hs'
        constructor
        · intro k' hk'
          by_cases hk'k : k' = k
          · subst hk'k
            unfold countBelowMaxB
            simp only [alookup_setAssoc_self]
            simpa using Nat.lt_of_not_le hcap
          · rw [countBelowMaxB_congr s
              { s with key_failure_counts := setAssoc s.key_failure_counts k (c + 1) } k'
              (alookup_setAssoc_ne _ _ _ _ hk'k) rfl]
            exact h1 k' hk'
        · intro p hp hplt
          by_cases hpk : p.1 = k
          · have hpe := mem_setAssoc_fst_eq hndc hp hpk
            have hkc : (k, c) ∈ s.key_failure_counts := alookup_mem hl
            have hclt : c < s.maxFailures := by
              have := Nat.lt_of_not_le hcap
              omega
            rw [hpe]
            exact h2 (k, c) hkc hclt
          · have hpmem := mem_setAssoc_of_fst_ne hp hpk
            exact h2 p hpmem hplt

theorem kmInv_reset_key_failure_count (s : KMState) (k : String) (hInv : kmInv s)
    (hmax : 0 < s.maxFailures) :
    kmInv (s.reset_key_failure_count k).1 := by
  rcases hInv with ⟨h1, h2⟩
  cases hl : alookup s.key_failure_counts k with
  | none =>
      have heq : (s.reset_key_failure_count k).1 = s := by
        unfold KMState.reset_key_failure_count; rw [hl]
      rw [heq]; exact ⟨h1, h2⟩
  | some c =>
      have heq : (s.reset_key_failure_count k).1 =
          { s with key_failure_counts := setAssoc s.key_failure_counts k 0,
                   valid_api_keys :=
                     if k ∈ s.valid_api_keys then s.valid_api_keys
                     else s.valid_api_keys ++ [k] } := by
        unfold KMState.reset_key_failure_count; rw [hl]
      rw [heq]
      constructor
      · intro k' hk'
        by_cases hk'k : k' = k
        · subst hk'k
          unfold countBelowMaxB
          simp only [alookup_setAssoc_self]
          simpa using hmax
        · rw [countBelowMaxB_congr s
            { s with key_failure_counts := setAssoc s.key_failure_counts k 0,
                     valid_api_keys :=
                       if k ∈ s.valid_api_keys then s.valid_api_keys
                       else s.valid_api_keys ++ [k] } k'
            (alookup_setAssoc_ne _ _ _ _ hk'k) rfl]
          apply h1 k'
          by_cases hmem : k ∈ s.valid_api_keys
          · simpa [if_pos hmem] using hk'
          · simp only [if_neg hmem] at hk'
            rcases List.mem_append.mp hk' with h | h
            · exact h
            · simp at h; exact absurd h hk'k
      · intro p hp hplt
        by_cases hpk : p.1 = k
        · rw [hpk]
          by_cases hmem : k ∈ s.valid_api_keys
          · simpa [if_pos hmem] using hmem
          · simp [if_neg hmem]
        · have hpmem := mem_setAssoc_of_fst_ne hp hpk
          have hval := h2 p hpmem hplt
          by_cases hmem : k ∈ s.valid_api_keys
          · simpa [if_pos hmem] using hval
          · simp only [if_neg hmem]
            exact List.mem_append_left _ hval

theorem kmInv_remove_key (s : KMState) (k : String) (hInv : kmInv s)
    (hndv : s.valid_api_keys.Nodup) :
    kmInv (s.remove_key k) := by
  rcases hInv with ⟨h1, h2⟩
  by_cases hmem : k ∈ s.api_keys
  · have heq : s.remove_key k =
        { s with api_keys := s.api_keys.erase k,
                 valid_api_keys := s.valid_api_keys.erase k,
                 key_failure_counts := s.key_failure_counts.filter (fun p => p.1 ≠ k),
                 key_model_status := s.key_model_status.filter (fun p => p.1 ≠ k),
                 key_index :=
                   if (s.valid_api_keys.erase k).length ≤ s.key_index ∧
                       s.valid_api_keys.erase k ≠ [] then 0
                   else s.key_index } := by
      unfold KMState.remove_key; rw [if_pos hmem]
    rw [heq]
    constructor
    · intro k' hk'
      have hk'ne : k' ≠ k := ((List.Nodup.mem_erase_iff hndv).mp hk').1
      have hk'mem : k' ∈ s.valid_api_keys := ((List.Nodup.mem_erase_iff hndv).mp hk').2
      rw [countBelowMaxB_congr s
        { s with api_keys := s.api_keys.erase k,
                 valid_api_keys := s.valid_api_keys.erase k,
                 key_failure_counts := s.key_failure_counts.filter (fun p => p.1 ≠ k),
                 key_model_status := s.key_model_status.filter (fun p => p.1 ≠ k),
                 key_index :=
                   if (s.valid_api_keys.erase k).length ≤ s.key_index ∧
                       s.valid_api_keys.erase k ≠ [] then 0
                   else s.key_index } k'
        (alookup_filter_fst_ne _ _ _ hk'ne) rfl]
      exact h1 k' hk'mem
    · intro p hp hplt
      have hpk : p.1 ≠ k := by
        have := List.of_mem_filter hp
        simpa using this
      have hpmem : p ∈ s.key_failure_counts := List.mem_of_mem_filter hp
      exact (List.mem_erase_of_ne hpk).mpr (h2 p hpmem hplt)
  · have heq : s.remove_key k = s := by
      unfold KMState.remove_key; rw [if_neg hmem]
    rw [heq]; exact ⟨h1, h2⟩

/-- C4 counterexample: from a clean one-key state, `mark_key_as_failed`
preserves the invariant, but `reset_failure_counts` afterwards zeroes the
count without re-adding the key to `valid_api_keys`, so the equivalence
fails (failCount[A] = 0 < MAX_FAILURES yet A is not in valid). -/
theorem C4_counterexample :
    kmInv (⟨["A"], ["A"], 0, [("A", 0)], [], 1⟩ : KMState) ∧
    kmInv ((⟨["A"], ["A"], 0, [("A", 0)], [], 1⟩ : KMState).mark_key_as_failed "A") ∧
    ¬ kmInv (((⟨["A"], ["A"], 0, [("A", 0)], [], 1⟩ :
        KMState).mark_key_as_failed "A").reset_failure_counts) := by decide

/-- C4 amended: `mark_key_as_failed`, `handle_api_failure`,
`reset_key_failure_count` (with a positive MAX_FAILURES) and `remove_key`
preserve the equivalence `c ∈ valid[] ⇔ failCount[c] < MAX_FAILURES`;
`reset_failure_counts` zeroes every count while leaving `valid_api_keys`
untouched, so it breaks the equivalence whenever some key had reached
MAX_FAILURES. -/
theorem C4_invariant_preservation (s : KMState) (k : String)
    (hInv : kmInv s) (hndv : s.valid_api_keys.Nodup)
    (hndc : (s.key_failure_counts.map Prod.fst).Nodup)
    (hmax : 0 < s.maxFailures) :
    kmInv (s.mark_key_as_failed k) ∧
    (∀ s', s.handle_api_failure k = some s' → kmInv s') ∧
    kmInv (s.reset_key_failure_count k).1 ∧
    kmInv (s.remove_key k) ∧
    s.reset_failure_counts.valid_api_keys = s.valid_api_keys ∧
    s.reset_failure_counts.key_failure_counts = s.key_failure_counts.map (fun p => (p.1, 0)) :=
  ⟨kmInv_mark_key_as_failed s k hInv hndv hndc,
   kmInv_handle_api_failure s k hInv hndv hndc,
   kmInv_reset_key_failure_count s k hInv hmax,
   kmInv_remove_key s k hInv hndv, rfl, rfl⟩

/-- C4 witness at a concrete two-key state with one failure recorded. -/
theorem C4_witness :
    (kmInv (⟨["A", "B"], ["A", "B"], 0, [("A", 1), ("B", 0)], [], 3⟩ : KMState) ∧
     (["A", "B"] : List String).Nodup ∧
     (([("A", 1), ("B", 0)] : List (String × Nat)).map Prod.fst).Nodup ∧
     0 < 3) ∧
    (kmInv ((⟨["A", "B"], ["A", "B"], 0, [("A", 1), ("B", 0)], [], 3⟩ :
        KMState).mark_key_as_failed "A") ∧
     (∀ s', (⟨["A", "B"], ["A", "B"], 0, [("A", 1), ("B", 0)], [], 3⟩ :
        KMState).handle_api_failure "A" = some s' → kmInv s') ∧
     kmInv ((⟨["A", "B"], ["A", "B"], 0, [("A", 1), ("B", 0)], [], 3⟩ :
        KMState).reset_key_failure_count "A").1 ∧
     kmInv ((⟨["A", "B"], ["A", "B"], 0, [("A", 1), ("B", 0)], [], 3⟩ :
        KMState).remove_key "A") ∧
     (⟨["A", "B"], ["A", "B"], 0, [("A", 1), ("B", 0)], [], 3⟩ :
        KMState).reset_failure_counts.valid_api_keys = ["A", "B"] ∧
     (⟨["A", "B"], ["A", "B"], 0, [("A", 1), ("B", 0)], [], 3⟩ :
        KMState).reset_failure_counts.key_failure_counts =
       ([("A", 1), ("B", 0)] : List (String × Nat)).map (fun p => (p.1, 0))) :=
  ⟨⟨by decide, by decide, by decide, by decide⟩,
   C4_invariant_preservation
     ⟨["A", "B"], ["A", "B"], 0, [("A", 1), ("B", 0)], [], 3⟩ "A"
     (by decide) (by decide) (by decide) (by decide)⟩

/-! ## Claim C3: the pool invariant and emergency_refill_async -/

/-- C3: `emergency_refill_async` violates the no-duplicates conjunct.  From a
reachable state satisfying all three conjuncts (pool [A], set is the singleton
containing A, capacity 2, threshold 2, key A valid), the refill selects its
candidates from `api_keys` filtered by `is_key_valid` only — without the
`_is_key_in_pool` exclusion that `async_verify_and_add` and
`_background_emergency_refill` both apply — so a successful verification of A
appends a second entry for A: the pool becomes [A, A].  The set and bound
conjuncts still hold, the distinctness conjunct fails. -/
theorem C3_emergency_refill_async_duplicates :
    poolInv (⟨2, [⟨"A", 0, 1000, 0⟩], {"A"}, 0, 0⟩ : PoolState) ∧
    ((emergency_refill_async ⟨["gemini-pro"], 5, 20, 2, 2, 3, 480⟩
        (fun _ => (50, 2000)) (fun l n => l.take n) (fun _ => true)
        ⟨⟨["A"], ["A"], 0, [("A", 0)], [], 1⟩,
         ⟨2, [⟨"A", 0, 1000, 0⟩], {"A"}, 0, 0⟩⟩).pool.valid_keys.map ValidKeyWithTTL.key)
      = ["A", "A"] ∧
    ¬ ((emergency_refill_async ⟨["gemini-pro"], 5, 20, 2, 2, 3, 480⟩
        (fun _ => (50, 2000)) (fun l n => l.take n) (fun _ => true)
        ⟨⟨["A"], ["A"], 0, [("A", 0)], [], 1⟩,
         ⟨2, [⟨"A", 0, 1000, 0⟩], {"A"}, 0, 0⟩⟩).pool.valid_keys.map
          ValidKeyWithTTL.key).Nodup ∧
    ¬ poolInv (emergency_refill_async ⟨["gemini-pro"], 5, 20, 2, 2, 3, 480⟩
        (fun _ => (50, 2000)) (fun l n => l.take n) (fun _ => true)
        ⟨⟨["A"], ["A"], 0, [("A", 0)], [], 1⟩,
         ⟨2, [⟨"A", 0, 1000, 0⟩], {"A"}, 0, 0⟩⟩).pool := by decide

/-! ## Checkout loop specification (claims C2 and C5) -/

/-- Whether any model has an unexpired cooldown entry for this credential. -/
def hasActiveCooldown (km : KMState) (nowUtc : Int) (k : String) : Bool :=
  match alookup km.key_model_status k with
  | some sts => sts.any (fun p => decide (nowUtc < p.2))
  | none => false

theorem is_key_usable_no_cooldown {km : KMState} {t u : Int} {e : ValidKeyWithTTL}
    (h : is_key_usable km t u e = true) : hasActiveCooldown km u e.key = false := by
  unfold is_key_usable at h
  unfold hasActiveCooldown
  by_cases hexp : e.is_expired t = true
  · simp [hexp] at h
  · simp only [hexp, if_false, Bool.false_eq_true] at h
    cases hl : alookup km.key_model_status e.key with
    | none => simp
    | some sts =>
        rw [hl] at h
        simpa using h

theorem hasActiveCooldown_false_bound {km : KMState} {u : Int} {k : String}
    (h : hasActiveCooldown km u k = false) :
    ∀ sts, alookup km.key_model_status k = some sts → ∀ p ∈ sts, p.2 ≤ u := by
  intro sts hl p hp
  unfold hasActiveCooldown at h
  rw [hl] at h
  simp only [List.any_eq_false] at h
  have := h p hp
  simpa using this

/-- One checkout step: a usable entry within its cap is returned. -/
theorem checkout_step_return (st : Settings) (km : KMState) (t u : Int) (m : Option String)
    (inc : Bool) (a : ValidKeyWithTTL) (rest : List ValidKeyWithTTL) (ps : Finset String)
    (ex xp : Nat) (hu : is_key_usable km t u a = true)
    (hcap : usageLimitReached (get_max_usage_for_model st m) a = false) :
    get_key_from_pool_with_checks st km t u m inc (a :: rest) ps ex xp =
      ⟨some (if inc then a.increment_usage else a),
       rest ++ [if inc then a.increment_usage else a],
       insert (if inc then a.increment_usage else a).key (ps.erase a.key), ex, xp⟩ := by
  simp [get_key_from_pool_with_checks, hu, hcap]

/-- One checkout step: a usable but usage-exhausted entry is dropped and the
usage-exhausted counter bumped. -/
theorem checkout_step_exhausted (st : Settings) (km : KMState) (t u : Int) (m : Option String)
    (inc : Bool) (a : ValidKeyWithTTL) (rest : List ValidKeyWithTTL) (ps : Finset String)
    (ex xp : Nat) (hu : is_key_usable km t u a = true)
    (hcap : usageLimitReached (get_max_usage_for_model st m) a = true) :
    get_key_from_pool_with_checks st km t u m inc (a :: rest) ps ex xp =
      get_key_from_pool_with_checks st km t u m inc rest (ps.erase a.key) (ex + 1) xp := by
  simp [get_key_from_pool_with_checks, hu, hcap]

/-- One checkout step: an unusable (expired or cooled) entry is dropped. -/
theorem checkout_step_unusable (st : Settings) (km : KMState) (t u : Int) (m : Option String)
    (inc : Bool) (a : ValidKeyWithTTL) (rest : List ValidKeyWithTTL) (ps : Finset String)
    (ex xp : Nat) (hu : is_key_usable km t u a = false) :
    get_key_from_pool_with_checks st km t u m inc (a :: rest) ps ex xp =
      get_key_from_pool_with_checks st km t u m inc rest (ps.erase a.key) ex
        (if a.is_expired t then xp + 1 else xp) := by
  simp [get_key_from_pool_with_checks, hu]

theorem checkout_none_spec (st : Settings) (km : KMState) (t u : Int) (m : Option String)
    (inc : Bool) :
    ∀ (l : List ValidKeyWithTTL) (ps : Finset String) (ex xp : Nat),
      (get_key_from_pool_with_checks st km t u m inc l ps ex xp).returned = none →
      (get_key_from_pool_with_checks st km t u m inc l ps ex xp).pool = [] ∧
      ∀ d ∈ l, is_key_usable km t u d = false ∨
        usageLimitReached (get_max_usage_for_model st m) d = true := by
  intro l
  induction l with
  | nil =>
      intro ps ex xp _
      exact ⟨rfl, by simp⟩
  | cons a rest ih =>
      intro ps ex xp h
      by_cases hu : is_key_usable km t u a = true
      · by_cases hcap : usageLimitReached (get_max_usage_for_model st m) a = true
        · rw [checkout_step_exhausted st km t u m inc a rest ps ex xp hu hcap] at h ⊢
          obtain ⟨h1, h2⟩ := ih _ _ _ h
          refine ⟨h1, ?_⟩
          intro d hd
          rcases List.mem_cons.mp hd with h3 | h3
          · subst h3; right; exact hcap
          · exact h2 d h3
        · rw [checkout_step_return st km t u m inc a rest ps ex xp hu
            (Bool.not_eq_true _ ▸ hcap)] at h
          exact Option.noConfusion h
      · rw [checkout_step_unusable st km t u m inc a rest ps ex xp
          (Bool.not_eq_true _ ▸ hu)] at h ⊢
        obtain ⟨h1, h2⟩ := ih _ _ _ h
        refine ⟨h1, ?_⟩
        intro d hd
        rcases List.mem_cons.mp hd with h3 | h3
        · subst h3; left; exact Bool.not_eq_true _ ▸ hu
        · exact h2 d h3

theorem checkout_some_spec (st : Settings) (km : KMState) (t u : Int) (m : Option String)
    (inc : Bool) :
    ∀ (l : List ValidKeyWithTTL) (ps : Finset String) (ex xp : Nat) (e : ValidKeyWithTTL),
      (get_key_from_pool_with_checks st km t u m inc l ps ex xp).returned = some e →
      ∃ dropped pre rest,
        l = dropped ++ pre :: rest ∧
        (∀ d ∈ dropped, is_key_usable km t u d = false ∨
            usageLimitReached (get_max_usage_for_model st m) d = true) ∧
        is_key_usable km t u pre = true ∧
        usageLimitReached (get_max_usage_for_model st m) pre = false ∧
        e = (if inc then pre.increment_usage else pre) ∧
        (get_key_from_pool_with_checks st km t u m inc l ps ex xp).pool = rest ++ [e] ∧
        (get_key_from_pool_with_checks st km t u m inc l ps ex xp).exhausted =
          ex + dropped.countP (fun d => is_key_usable km t u d &&
            usageLimitReached (get_max_usage_for_model st m) d) := by
  intro l
  induction l with
  | nil =>
      intro ps ex xp e h
      exact absurd h (by simp [get_key_from_pool_with_checks])
  | cons a rest ih =>
      intro ps ex xp e h
      by_cases hu : is_key_usable km t u a = true
      · by_cases hcap : usageLimitReached (get_max_usage_for_model st m) a = true
        · rw [checkout_step_exhausted st km t u m inc a rest ps ex xp hu hcap] at h ⊢
          obtain ⟨dropped, pre, rest1, hsplit, hdrop, hup, hcapp, hee, hpool, hex⟩ :=
            ih _ _ _ _ h
          refine ⟨a :: dropped, pre, rest1, by rw [hsplit]; rfl, ?_, hup, hcapp, hee, hpool, ?_⟩
          · intro d hd
            rcases List.mem_cons.mp hd with h3 | h3
            · subst h3; right; exact hcap
            · exact hdrop d h3
          · rw [hex, List.countP_cons_of_pos]
            · omega
            · simp [hu, hcap]
        · have hcap' : usageLimitReached (get_max_usage_for_model st m) a = false :=
            Bool.not_eq_true _ ▸ hcap
          rw [checkout_step_return st km t u m inc a rest ps ex xp hu hcap'] at h ⊢
          simp only [Option.some.injEq] at h
          refine ⟨[], a, rest, rfl, by simp, hu, hcap', h.symm, ?_, ?_⟩
          · simp [h]
          · simp
      · have hu' : is_key_usable km t u a = false := Bool.not_eq_true _ ▸ hu
        rw [checkout_step_unusable st km t u m inc a rest ps ex xp hu'] at h ⊢
        obtain ⟨dropped, pre, rest1, hsplit, hdrop, hup, hcapp, hee, hpool, hex⟩ :=
          ih _ _ _ _ h
        refine ⟨a :: dropped, pre, rest1, by rw [hsplit]; rfl, ?_, hup, hcapp, hee, hpool, ?_⟩
        · intro d hd
          rcases List.mem_cons.mp hd with h3 | h3
          · subst h3; left; exact hu'
          · exact hdrop d h3
        · rw [hex, List.countP_cons_of_neg]
          simp [hu']

/-! ## Claim C2: cooldown at checkout -/

/-- C2 counterexample: credential A is fresh (unexpired, usage 0) and cooled
only for gemini-pro, yet `get_valid_key` for gemini-flash does not serve A
from the pool: `_is_key_usable` ignores the requested model, A is evicted,
the pool ends empty and the round-robin fallback key B is returned instead. -/
theorem C2_counterexample :
    ValidKeyWithTTL.is_expired ⟨"A", 0, 1000, 0⟩ 5 = false ∧
    alookup (⟨["A", "B"], ["B"], 0, [("A", 0), ("B", 0)],
        [("A", [("gemini-pro", 500)])], 3⟩ : KMState).key_model_status "A"
      = some [("gemini-pro", 500)] ∧
    ((100 : Int) < 500) ∧
    (get_valid_key ⟨["gemini-pro"], 5, 20, 2, 2, 3, 480⟩ 5 100 (some "gemini-flash") true
      ⟨⟨["A", "B"], ["B"], 0, [("A", 0), ("B", 0)], [("A", [("gemini-pro", 500)])], 3⟩,
       ⟨2, [⟨"A", 0, 1000, 0⟩], {"A"}, 0, 0⟩⟩).1 = "B" ∧
    (get_valid_key ⟨["gemini-pro"], 5, 20, 2, 2, 3, 480⟩ 5 100 (some "gemini-flash") true
      ⟨⟨["A", "B"], ["B"], 0, [("A", 0), ("B", 0)], [("A", [("gemini-pro", 500)])], 3⟩,
       ⟨2, [⟨"A", 0, 1000, 0⟩], {"A"}, 0, 0⟩⟩).2.pool.valid_keys = [] := by decide

/-- C2 amended: a credential served from the pool has no active cooldown
entry for any model at the time of return — in particular none for the
caller's model; consequently a cooldown that applies only to a different
model also disqualifies a pooled credential, which is then never the one
returned. -/
theorem C2_pool_checkout_cooldown (st : Settings) (km : KMState) (t u : Int)
    (m : Option String) (inc : Bool) (l : List ValidKeyWithTTL) (ps : Finset String)
    (ex xp : Nat) :
    (∀ e, (get_key_from_pool_with_checks st km t u m inc l ps ex xp).returned = some e →
        hasActiveCooldown km u e.key = false ∧
        ∀ sts, alookup km.key_model_status e.key = some sts → ∀ p ∈ sts, p.2 ≤ u) ∧
    (∀ d ∈ l, hasActiveCooldown km u d.key = true →
        ∀ e, (get_key_from_pool_with_checks st km t u m inc l ps ex xp).returned = some e →
          e.key ≠ d.key) := by
  have hkey : ∀ e : ValidKeyWithTTL, (if inc then e.increment_usage else e).key = e.key := by
    intro e
    cases inc <;> simp [ValidKeyWithTTL.increment_usage]
  constructor
  · intro e he
    obtain ⟨dropped, pre, rest, _, _, hup, _, hee, _, _⟩ :=
      checkout_some_spec st km t u m inc l ps ex xp e he
    have hk : e.key = pre.key := by rw [hee]; exact hkey pre
    have hnc := is_key_usable_no_cooldown hup
    rw [hk]
    exact ⟨hnc, hasActiveCooldown_false_bound hnc⟩
  · intro d _ hcdn e he
    obtain ⟨dropped, pre, rest, _, _, hup, _, hee, _, _⟩ :=
      checkout_some_spec st km t u m inc l ps ex xp e he
    have hk : e.key = pre.key := by rw [hee]; exact hkey pre
    have hnc := is_key_usable_no_cooldown hup
    intro hcontra
    rw [hk] at hcontra
    rw [hcontra] at hnc
    rw [hcdn] at hnc
    exact Bool.noConfusion hnc

/-- C2 witness: on a one-entry pool with no cooldowns the loop returns A, and
the amended guarantees hold at this concrete instance. -/
theorem C2_witness :
    (get_key_from_pool_with_checks ⟨["gemini-pro"], 5, 20, 2, 2, 3, 480⟩
        ⟨["A"], ["A"], 0, [("A", 0)], [], 3⟩ 5 100 (some "gemini-flash") true
        [⟨"A", 0, 1000, 0⟩] {"A"} 0 0).returned = some ⟨"A", 0, 1000, 1⟩ ∧
    ((∀ e, (get_key_from_pool_with_checks ⟨["gemini-pro"], 5, 20, 2, 2, 3, 480⟩
        ⟨["A"], ["A"], 0, [("A", 0)], [], 3⟩ 5 100 (some "gemini-flash") true
        [⟨"A", 0, 1000, 0⟩] {"A"} 0 0).returned = some e →
        hasActiveCooldown ⟨["A"], ["A"], 0, [("A", 0)], [], 3⟩ 100 e.key = false ∧
        ∀ sts, alookup (⟨["A"], ["A"], 0, [("A", 0)], [], 3⟩ :
            KMState).key_model_status e.key = some sts → ∀ p ∈ sts, p.2 ≤ 100) ∧
     (∀ d ∈ [(⟨"A", 0, 1000, 0⟩ : ValidKeyWithTTL)],
        hasActiveCooldown ⟨["A"], ["A"], 0, [("A", 0)], [], 3⟩ 100 d.key = true →
        ∀ e, (get_key_from_pool_with_checks ⟨["gemini-pro"], 5, 20, 2, 2, 3, 480⟩
            ⟨["A"], ["A"], 0, [("A", 0)], [], 3⟩ 5 100 (some "gemini-flash") true
            [⟨"A", 0, 1000, 0⟩] {"A"} 0 0).returned = some e →
          e.key ≠ d.key)) :=
  ⟨by decide,
   C2_pool_checkout_cooldown ⟨["gemini-pro"], 5, 20, 2, 2, 3, 480⟩
     ⟨["A"], ["A"], 0, [("A", 0)], [], 3⟩ 5 100 (some "gemini-flash") true
     [⟨"A", 0, 1000, 0⟩] {"A"} 0 0⟩

/-! ## Claim C5: per-model usage caps at checkout -/

/-- C5: at a checkout served from the pool with usage incrementing, the
returned entry was strictly below the model cap before the increment (or the
cap is non-positive, meaning unlimited), so after the increment its usage
count is at most the cap; every usable entry encountered at or above a
positive cap is evicted (it is never the returned one, and with distinct
pooled credentials its key has left the pool) and each such eviction bumps
the usage-exhausted counter.  The cap is PRO_MODEL_MAX_USAGE exactly when the
model, after suffix stripping, matches the PRO_MODELS list, else
NON_PRO_MODEL_MAX_USAGE. -/
theorem C5_usage_cap (st : Settings) (km : KMState) (t u : Int) (m : Option String)
    (l : List ValidKeyWithTTL) (ps : Finset String) (ex xp : Nat)
    (hnd : (l.map ValidKeyWithTTL.key).Nodup) :
    (get_max_usage_for_model st m =
      if is_pro_model st m then st.proModelMaxUsage else st.nonProModelMaxUsage) ∧
    (∀ e, (get_key_from_pool_with_checks st km t u m true l ps ex xp).returned = some e →
        1 ≤ e.usage_count ∧
        (0 < get_max_usage_for_model st m →
          (e.usage_count : Int) - 1 < get_max_usage_for_model st m ∧
          (e.usage_count : Int) ≤ get_max_usage_for_model st m)) ∧
    (∀ e, (get_key_from_pool_with_checks st km t u m true l ps ex xp).returned = some e →
        ∃ dropped pre rest,
          l = dropped ++ pre :: rest ∧
          e = pre.increment_usage ∧
          (get_max_usage_for_model st m ≤ 0 ∨
            (pre.usage_count : Int) < get_max_usage_for_model st m) ∧
          (get_key_from_pool_with_checks st km t u m true l ps ex xp).exhausted =
            ex + dropped.countP (fun d => is_key_usable km t u d &&
              usageLimitReached (get_max_usage_for_model st m) d) ∧
          (∀ d ∈ dropped, is_key_usable km t u d = true →
            usageLimitReached (get_max_usage_for_model st m) d = true →
              d.key ≠ e.key ∧
              d.key ∉ (get_key_from_pool_with_checks st km t u m true l ps ex
                  xp).pool.map ValidKeyWithTTL.key)) := by
  refine ⟨rfl, ?_, ?_⟩
  · intro e he
    obtain ⟨dropped, pre, rest, _, _, _, hcapp, hee, _, _⟩ :=
      checkout_some_spec st km t u m true l ps ex xp e he
    simp only [if_true] at hee
    have husage : e.usage_count = pre.usage_count + 1 := by
      rw [hee]; rfl
    have hcap2 : ¬(0 < get_max_usage_for_model st m ∧
        get_max_usage_for_model st m ≤ (pre.usage_count : Int)) := by
      intro ⟨ha, hb⟩
      have : usageLimitReached (get_max_usage_for_model st m) pre = true := by
        unfold usageLimitReached
        simp [ha, hb]
      rw [this] at hcapp
      exact Bool.noConfusion hcapp
    constructor
    · omega
    · intro hpos
      have : (pre.usage_count : Int) < get_max_usage_for_model st m := by
        by_contra hcon
        exact hcap2 ⟨hpos, le_of_not_lt hcon⟩
      constructor
      · rw [husage]; push_cast; omega
      · rw [husage]; push_cast; omega
  · intro e he
    obtain ⟨dropped, pre, rest, hsplit, _, _, hcapp, hee, hpool, hex⟩ :=
      checkout_some_spec st km t u m true l ps ex xp e he
    simp only [if_true] at hee
    have hcap2 : ¬(0 < get_max_usage_for_model st m ∧
        get_max_usage_for_model st m ≤ (pre.usage_count : Int)) := by
      intro ⟨ha, hb⟩
      have : usageLimitReached (get_max_usage_for_model st m) pre = true := by
        unfold usageLimitReached
        simp [ha, hb]
      rw [this] at hcapp
      exact Bool.noConfusion hcapp
    have hekey : e.key = pre.key := by rw [hee]; rfl
    refine ⟨dropped, pre, rest, hsplit, hee, ?_, hex, ?_⟩
    · by_cases hpos : 0 < get_max_usage_for_model st m
      · right
        by_contra hcon
        exact hcap2 ⟨hpos, le_of_not_lt hcon⟩
      · left; omega
    · intro d hd _ _
      have hmap : (l.map ValidKeyWithTTL.key) =
          dropped.map ValidKeyWithTTL.key ++
            pre.key :: rest.map ValidKeyWithTTL.key := by
        rw [hsplit]; simp
      rw [hmap] at hnd
      rw [List.nodup_append] at hnd
      have hdk : d.key ∈ dropped.map ValidKeyWithTTL.key :=
        List.mem_map_of_mem _ hd
      have hdisj := hnd.2.2 hdk
      constructor
      · intro hcon
        apply hdisj
        rw [hcon, hekey]
        exact List.mem_cons_self _ _
      · intro hcon
        rw [hpool] at hcon
        simp only [List.map_append, List.map_cons, List.map_nil] at hcon
        rcases List.mem_append.mp hcon with hc | hc
        · exact hdisj (List.mem_cons_of_mem _ hc)
        · simp only [List.mem_singleton] at hc
          rw [hekey] at hc
          exact hdisj (hc ▸ List.mem_cons_self _ _)

/-- C5 witness: pro-model cap 2; a usable entry X at its cap is evicted with
the usage-exhausted counter bumped, and A is returned with usage 1 ≤ 2. -/
theorem C5_witness :
    (([(⟨"X", 0, 10, 2⟩ : ValidKeyWithTTL), ⟨"A", 0, 10, 0⟩].map
        ValidKeyWithTTL.key).Nodup ∧
     (get_key_from_pool_with_checks ⟨["gemini-pro"], 2, 20, 2, 2, 3, 480⟩
        ⟨["X", "A"], ["X", "A"], 0, [("X", 0), ("A", 0)], [], 3⟩ 5 100
        (some "gemini-pro") true [⟨"X", 0, 10, 2⟩, ⟨"A", 0, 10, 0⟩]
        {"X", "A"} 0 0).returned = some ⟨"A", 0, 10, 1⟩ ∧
     (get_key_from_pool_with_checks ⟨["gemini-pro"], 2, 20, 2, 2, 3, 480⟩
        ⟨["X", "A"], ["X", "A"], 0, [("X", 0), ("A", 0)], [], 3⟩ 5 100
        (some "gemini-pro") true [⟨"X", 0, 10, 2⟩, ⟨"A", 0, 10, 0⟩]
        {"X", "A"} 0 0).exhausted = 1) ∧
    ((get_max_usage_for_model ⟨["gemini-pro"], 2, 20, 2, 2, 3, 480⟩ (some "gemini-pro") =
      if is_pro_model ⟨["gemini-pro"], 2, 20, 2, 2, 3, 480⟩ (some "gemini-pro") then
        (2 : Int) else 20) ∧
     (∀ e, (get_key_from_pool_with_checks ⟨["gemini-pro"], 2, 20, 2, 2, 3, 480⟩
          ⟨["X", "A"], ["X", "A"], 0, [("X", 0), ("A", 0)], [], 3⟩ 5 100
          (some "gemini-pro") true [⟨"X", 0, 10, 2⟩, ⟨"A", 0, 10, 0⟩]
          {"X", "A"} 0 0).returned = some e →
        1 ≤ e.usage_count ∧
        (0 < get_max_usage_for_model ⟨["gemini-pro"], 2, 20, 2, 2, 3, 480⟩
            (some "gemini-pro") →
          (e.usage_count : Int) - 1 <
            get_max_usage_for_model ⟨["gemini-pro"], 2, 20, 2, 2, 3, 480⟩
              (some "gemini-pro") ∧
          (e.usage_count : Int) ≤
            get_max_usage_for_model ⟨["gemini-pro"], 2, 20, 2, 2, 3, 480⟩
              (some "gemini-pro"))) ∧
     (∀ e, (get_key_from_pool_with_checks ⟨["gemini-pro"], 2, 20, 2, 2, 3, 480⟩
          ⟨["X", "A"], ["X", "A"], 0, [("X", 0), ("A", 0)], [], 3⟩ 5 100
          (some "gemini-pro") true [⟨"X", 0, 10, 2⟩, ⟨"A", 0, 10, 0⟩]
          {"X", "A"} 0 0).returned = some e →
        ∃ dropped pre rest,
          [(⟨"X", 0, 10, 2⟩ : ValidKeyWithTTL), ⟨"A", 0, 10, 0⟩] =
            dropped ++ pre :: rest ∧
          e = pre.increment_usage ∧
          (get_max_usage_for_model ⟨["gemini-pro"], 2, 20, 2, 2, 3, 480⟩
              (some "gemini-pro") ≤ 0 ∨
            (pre.usage_count : Int) <
              get_max_usage_for_model ⟨["gemini-pro"], 2, 20, 2, 2, 3, 480⟩
                (some "gemini-pro")) ∧
          (get_key_from_pool_with_checks ⟨["gemini-pro"], 2, 20, 2, 2, 3, 480⟩
              ⟨["X", "A"], ["X", "A"], 0, [("X", 0), ("A", 0)], [], 3⟩ 5 100
              (some "gemini-pro") true [⟨"X", 0, 10, 2⟩, ⟨"A", 0, 10, 0⟩]
              {"X", "A"} 0 0).exhausted =
            0 + dropped.countP (fun d =>
              is_key_usable ⟨["X", "A"], ["X", "A"], 0, [("X", 0), ("A", 0)], [], 3⟩
                  5 100 d &&
              usageLimitReached (get_max_usage_for_model
                  ⟨["gemini-pro"], 2, 20, 2, 2, 3, 480⟩ (some "gemini-pro")) d) ∧
          (∀ d ∈ dropped,
            is_key_usable ⟨["X", "A"], ["X", "A"], 0, [("X", 0), ("A", 0)], [], 3⟩
                5 100 d = true →
            usageLimitReached (get_max_usage_for_model
                ⟨["gemini-pro"], 2, 20, 2, 2, 3, 480⟩ (some "gemini-pro")) d = true →
              d.key ≠ e.key ∧
              d.key ∉ (get_key_from_pool_with_checks
                  ⟨["gemini-pro"], 2, 20, 2, 2, 3, 480⟩
                  ⟨["X", "A"], ["X", "A"], 0, [("X", 0), ("A", 0)], [], 3⟩ 5 100
                  (some "gemini-pro") true [⟨"X", 0, 10, 2⟩, ⟨"A", 0, 10, 0⟩]
                  {"X", "A"} 0 0).pool.map ValidKeyWithTTL.key))) :=
  ⟨⟨by decide, by decide, by decide⟩,
   C5_usage_cap ⟨["gemini-pro"], 2, 20, 2, 2, 3, 480⟩
     ⟨["X", "A"], ["X", "A"], 0, [("X", 0), ("A", 0)], [], 3⟩ 5 100
     (some "gemini-pro") [⟨"X", 0, 10, 2⟩, ⟨"A", 0, 10, 0⟩] {"X", "A"} 0 0 (by decide)⟩

/-! ## Claim C6: 429 handling -/

theorem remove_key_from_pool_valid_keys (p : PoolState) (k : String) :
    (remove_key_from_pool p k).valid_keys = p.valid_keys.filter (fun e => e.key ≠ k) := by
  unfold remove_key_from_pool
  by_cases hp : p.valid_keys = []
  · rw [if_pos hp, hp]
    simp
  · rw [if_neg hp]
    by_cases hlen : (p.valid_keys.filter (fun e => e.key ≠ k)).length < p.valid_keys.length
    · rw [if_pos hlen]
    · rw [if_neg hlen]
      have hle := List.length_filter_le (fun e => decide (e.key ≠ k)) p.valid_keys
      have heq : (p.valid_keys.filter (fun e => e.key ≠ k)).length = p.valid_keys.length := by
        omega
      have hall := List.filter_length_eq_length.mp heq
      exact (List.filter_eq_self.mpr hall).symm

/-- The next reset instant has wall-clock minute H:00, lies strictly in the
future and within 24 hours, and is minimal among such instants. -/
theorem nextResetLocal_spec (now : LocalTime) (H : Nat)
    (hmin : now.minute < 1440) (hH : H < 24) :
    (nextResetLocal now H).minute = H * 60 ∧
    now.abs < (nextResetLocal now H).abs ∧
    (nextResetLocal now H).abs ≤ now.abs + 1440 ∧
    ∀ t : LocalTime, t.minute = H * 60 → now.abs < t.abs →
      (nextResetLocal now H).abs ≤ t.abs := by
  by_cases hc : H * 60 ≤ now.minute
  · have hnext : nextResetLocal now H = ⟨now.day + 1, H * 60⟩ := by
      unfold nextResetLocal; rw [if_pos hc]
    rw [hnext]
    refine ⟨rfl, ?_, ?_, ?_⟩
    · show now.day * 1440 + now.minute < (now.day + 1) * 1440 + H * 60
      omega
    · show (now.day + 1) * 1440 + H * 60 ≤ now.day * 1440 + now.minute + 1440
      omega
    · intro t ht hlt
      have hlt2 : now.day * 1440 + now.minute < t.day * 1440 + t.minute := hlt
      show (now.day + 1) * 1440 + H * 60 ≤ t.day * 1440 + t.minute
      omega
  · have hnext : nextResetLocal now H = ⟨now.day, H * 60⟩ := by
      unfold nextResetLocal; rw [if_neg hc]
    rw [hnext]
    refine ⟨rfl, ?_, ?_, ?_⟩
    · show now.day * 1440 + now.minute < now.day * 1440 + H * 60
      omega
    · show now.day * 1440 + H * 60 ≤ now.day * 1440 + now.minute + 1440
      omega
    · intro t ht hlt
      have hlt2 : now.day * 1440 + now.minute < t.day * 1440 + t.minute := hlt
      show now.day * 1440 + H * 60 ≤ t.day * 1440 + t.minute
      omega

/-- C6: on an upstream error whose text contains 429 with a model name, the
handler stores `cooldown[(key, model)] = next reset instant in the configured
timezone converted to UTC` and removes the key from the pool (when the source
is not key_validation); the stored instant is the next wall-clock occurrence
of GEMINI_QUOTA_RESET_HOUR (tomorrow's when today's has passed); with no
model name the key is instead marked failed: its count becomes MAX_FAILURES
and it leaves the valid list. -/
theorem C6_rate_limit_429 (st : Settings) (nowLocal : LocalTime)
    (errStr oldKey m source : String) (s : SysState)
    (h429 : strContains errStr "429" = true)
    (hmin : nowLocal.minute < 1440) (hH : st.geminiQuotaResetHour < 24)
    (hsrc : source ≠ "key_validation") :
    (∀ s', handleApiErrorStep1 st nowLocal errStr oldKey (some m) source s = some s' →
        (∃ sts, alookup s'.km.key_model_status oldKey = some sts ∧
           alookup sts m =
             some ((nextResetLocal nowLocal st.geminiQuotaResetHour).toUtc
               st.tzOffsetMinutes)) ∧
        s'.pool.valid_keys = s.pool.valid_keys.filter (fun e => e.key ≠ oldKey) ∧
        (∀ e ∈ s'.pool.valid_keys, e.key ≠ oldKey)) ∧
    ((nextResetLocal nowLocal st.geminiQuotaResetHour).minute =
        st.geminiQuotaResetHour * 60 ∧
     nowLocal.abs < (nextResetLocal nowLocal st.geminiQuotaResetHour).abs ∧
     (nextResetLocal nowLocal st.geminiQuotaResetHour).abs ≤ nowLocal.abs + 1440 ∧
     (∀ t : LocalTime, t.minute = st.geminiQuotaResetHour * 60 →
        nowLocal.abs < t.abs →
        (nextResetLocal nowLocal st.geminiQuotaResetHour).abs ≤ t.abs) ∧
     (nextResetLocal nowLocal st.geminiQuotaResetHour).toUtc st.tzOffsetMinutes =
       ((nextResetLocal nowLocal st.geminiQuotaResetHour).abs : Int) -
         st.tzOffsetMinutes) ∧
    (∀ c, alookup s.km.key_failure_counts oldKey = some c →
       ∀ s', handleApiErrorStep1 st nowLocal errStr oldKey none source s = some s' →
         alookup s'.km.key_failure_counts oldKey = some s.km.maxFailures ∧
         (s.km.valid_api_keys.Nodup → oldKey ∉ s'.km.valid_api_keys)) := by
  refine ⟨?_, ?_, ?_⟩
  · intro s' hs'
    have hstep : handleApiErrorStep1 st nowLocal errStr oldKey (some m) source s =
        some ⟨s.km.mark_key_model_as_cooling st nowLocal oldKey m,
              remove_key_from_pool s.pool oldKey⟩ := by
      unfold handleApiErrorStep1
      simp [classifyError, h429, hsrc]
    rw [hstep] at hs'
    simp only [Option.some.injEq] at hs'
    subst hs'
    refine ⟨?_, ?_, ?_⟩
    · unfold KMState.mark_key_model_as_cooling
      exact ⟨setAssoc ((alookup s.km.key_model_status oldKey).getD []) m
          ((nextResetLocal nowLocal st.geminiQuotaResetHour).toUtc st.tzOffsetMinutes),
        alookup_setAssoc_self _ _ _, alookup_setAssoc_self _ _ _⟩
    · exact remove_key_from_pool_valid_keys s.pool oldKey
    · intro e he
      rw [remove_key_from_pool_valid_keys s.pool oldKey] at he
      have := List.of_mem_filter he
      simpa using this
  · obtain ⟨h1, h2, h3, h4⟩ :=
      nextResetLocal_spec nowLocal st.geminiQuotaResetHour hmin hH
    exact ⟨h1, h2, h3, h4, rfl⟩
  · intro c hc s' hs'
    have hstep : handleApiErrorStep1 st nowLocal errStr oldKey none source s =
        some ⟨s.km.mark_key_as_failed oldKey, s.pool⟩ := by
      unfold handleApiErrorStep1
      simp [classifyError, h429]
    rw [hstep] at hs'
    simp only [Option.some.injEq] at hs'
    subst hs'
    have hmark : s.km.mark_key_as_failed oldKey =
        { s.km with
            key_failure_counts := setAssoc s.km.key_failure_counts oldKey s.km.maxFailures,
            valid_api_keys := s.km.valid_api_keys.erase oldKey } := by
      unfold KMState.mark_key_as_failed
      rw [hc]
    rw [hmark]
    refine ⟨alookup_setAssoc_self _ _ _, ?_⟩
    intro hnd hmem
    exact ((List.Nodup.mem_erase_iff hnd).mp hmem).1 rfl

/-- C6 witness at 03:20 local time (reset hour 3, zone UTC+8): the hypotheses
hold and the conclusions follow at a concrete two-key state. -/
theorem C6_witness :
    (strContains "429 RESOURCE_EXHAUSTED" "429" = true ∧
     (⟨10, 200⟩ : LocalTime).minute < 1440 ∧
     (⟨([] : List String), 5, 20, 2, 2, 3, 480⟩ : Settings).geminiQuotaResetHour < 24 ∧
     "gemini-chat" ≠ "key_validation" ∧
     (handleApiErrorStep1 ⟨[], 5, 20, 2, 2, 3, 480⟩ ⟨10, 200⟩ "429 RESOURCE_EXHAUSTED" "A"
        (some "gemini-pro") "gemini-chat"
        ⟨⟨["A", "B"], ["A", "B"], 0, [("A", 0), ("B", 0)], [], 3⟩,
         ⟨2, [⟨"A", 0, 1000, 0⟩, ⟨"B", 0, 1000, 0⟩], {"A", "B"}, 0, 0⟩⟩).isSome = true) ∧
    ((∀ s', handleApiErrorStep1 ⟨[], 5, 20, 2, 2, 3, 480⟩ ⟨10, 200⟩ "429 RESOURCE_EXHAUSTED"
        "A" (some "gemini-pro") "gemini-chat"
        ⟨⟨["A", "B"], ["A", "B"], 0, [("A", 0), ("B", 0)], [], 3⟩,
         ⟨2, [⟨"A", 0, 1000, 0⟩, ⟨"B", 0, 1000, 0⟩], {"A", "B"}, 0, 0⟩⟩ = some s' →
        (∃ sts, alookup s'.km.key_model_status "A" = some sts ∧
           alookup sts "gemini-pro" =
             some ((nextResetLocal ⟨10, 200⟩
               (⟨([] : List String), 5, 20, 2, 2, 3, 480⟩ : Settings).geminiQuotaResetHour).toUtc
               (⟨([] : List String), 5, 20, 2, 2, 3, 480⟩ : Settings).tzOffsetMinutes)) ∧
        s'.pool.valid_keys =
          [(⟨"A", 0, 1000, 0⟩ : ValidKeyWithTTL), ⟨"B", 0, 1000, 0⟩].filter
            (fun e => e.key ≠ "A") ∧
        (∀ e ∈ s'.pool.valid_keys, e.key ≠ "A")) ∧
     ((nextResetLocal ⟨10, 200⟩
          (⟨([] : List String), 5, 20, 2, 2, 3, 480⟩ : Settings).geminiQuotaResetHour).minute =
        (⟨([] : List String), 5, 20, 2, 2, 3, 480⟩ : Settings).geminiQuotaResetHour * 60 ∧
      (⟨10, 200⟩ : LocalTime).abs < (nextResetLocal ⟨10, 200⟩
        (⟨([] : List String), 5, 20, 2, 2, 3, 480⟩ : Settings).geminiQuotaResetHour).abs ∧
      (nextResetLocal ⟨10, 200⟩
          (⟨([] : List String), 5, 20, 2, 2, 3, 480⟩ : Settings).geminiQuotaResetHour).abs ≤
        (⟨10, 200⟩ : LocalTime).abs + 1440 ∧
      (∀ t : LocalTime,
        t.minute = (⟨([] : List String), 5, 20, 2, 2, 3, 480⟩ : Settings).geminiQuotaResetHour * 60 →
        (⟨10, 200⟩ : LocalTime).abs < t.abs →
        (nextResetLocal ⟨10, 200⟩
            (⟨([] : List String), 5, 20, 2, 2, 3, 480⟩ : Settings).geminiQuotaResetHour).abs ≤
          t.abs) ∧
      (nextResetLocal ⟨10, 200⟩
          (⟨([] : List String), 5, 20, 2, 2, 3, 480⟩ : Settings).geminiQuotaResetHour).toUtc
          (⟨([] : List String), 5, 20, 2, 2, 3, 480⟩ : Settings).tzOffsetMinutes =
        ((nextResetLocal ⟨10, 200⟩
            (⟨([] : List String), 5, 20, 2, 2, 3, 480⟩ : Settings).geminiQuotaResetHour).abs : Int) -
          (⟨([] : List String), 5, 20, 2, 2, 3, 480⟩ : Settings).tzOffsetMinutes) ∧
     (∀ c, alookup (⟨["A", "B"], ["A", "B"], 0, [("A", 0), ("B", 0)], [], 3⟩ :
          KMState).key_failure_counts "A" = some c →
        ∀ s', handleApiErrorStep1 ⟨[], 5, 20, 2, 2, 3, 480⟩ ⟨10, 200⟩
            "429 RESOURCE_EXHAUSTED" "A" none "gemini-chat"
            ⟨⟨["A", "B"], ["A", "B"], 0, [("A", 0), ("B", 0)], [], 3⟩,
             ⟨2, [⟨"A", 0, 1000, 0⟩, ⟨"B", 0, 1000, 0⟩], {"A", "B"}, 0, 0⟩⟩ = some s' →
          alookup s'.km.key_failure_counts "A" =
            some (⟨["A", "B"], ["A", "B"], 0, [("A", 0), ("B", 0)], [], 3⟩ :
              KMState).maxFailures ∧
          ((⟨["A", "B"], ["A", "B"], 0, [("A", 0), ("B", 0)], [], 3⟩ :
              KMState).valid_api_keys.Nodup → "A" ∉ s'.km.valid_api_keys))) :=
  ⟨⟨by decide, by decide, by decide, by decide, by decide⟩,
   C6_rate_limit_429 ⟨[], 5, 20, 2, 2, 3, 480⟩ ⟨10, 200⟩ "429 RESOURCE_EXHAUSTED" "A"
     "gemini-pro" "gemini-chat"
     ⟨⟨["A", "B"], ["A", "B"], 0, [("A", 0), ("B", 0)], [], 3⟩,
      ⟨2, [⟨"A", 0, 1000, 0⟩, ⟨"B", 0, 1000, 0⟩], {"A", "B"}, 0, 0⟩⟩
     (by decide) (by decide) (by decide) (by decide)⟩

/-! ## Claim C8: the continuation request -/

theorem findLastUserIdx_none {l : List Turn} (h : findLastUserIdx l = none) :
    ∀ t ∈ l, t.role ≠ some "user" := by
  induction l with
  | nil => simp
  | cons a ts ih =>
      unfold findLastUserIdx at h
      cases hts : findLastUserIdx ts with
      | some j => rw [hts] at h; exact absurd h (by simp)
      | none =>
          rw [hts] at h
          by_cases ha : a.role = some "user"
          · rw [if_pos ha] at h; exact absurd h (by simp)
          · intro t ht
            rcases List.mem_cons.mp ht with h1 | h1
            · subst h1; exact ha
            · exact ih hts t h1

theorem findLastUserIdx_some {l : List Turn} {j : Nat} (h : findLastUserIdx l = some j) :
    j < l.length ∧
    (∃ t, l.get? j = some t ∧ t.role = some "user") ∧
    (∀ i t, j < i → l.get? i = some t → t.role ≠ some "user") := by
  induction l generalizing j with
  | nil => simp [findLastUserIdx] at h
  | cons a ts ih =>
      unfold findLastUserIdx at h
      cases hts : findLastUserIdx ts with
      | some j' =>
          rw [hts] at h
          simp only [Option.some.injEq] at h
          subst h
          obtain ⟨h1, ⟨t, ht1, ht2⟩, h3⟩ := ih hts
          refine ⟨by simpa using h1, ⟨t, by simpa using ht1, ht2⟩, ?_⟩
          intro i t' hi hget
          cases i with
          | zero => omega
          | succ i' =>
              simp only [List.get?_cons_succ] at hget
              exact h3 i' t' (by omega) hget
      | none =>
          rw [hts] at h
          by_cases ha : a.role = some "user"
          · rw [if_pos ha] at h
            simp only [Option.some.injEq] at h
            subst h
            refine ⟨by simp, ⟨a, rfl, ha⟩, ?_⟩
            intro i t' hi hget
            cases i with
            | zero => omega
            | succ i' =>
                simp only [List.get?_cons_succ] at hget
                exact findLastUserIdx_none hts t' (List.get?_mem hget)
          · rw [if_neg ha] at h
            exact absurd h (by simp)

/-- C8: `build_retry_request_body` keeps every other field of the request,
splices exactly the two synthetic turns (a model turn carrying the
accumulated text, then the canonical continue-user turn) immediately after
the last user-role turn — so all pre-existing turns are kept, split by
take/drop around that index — and appends them at the tail when no user turn
exists. -/
theorem C8_retry_body_splice (body : ReqBody) (acc : String) :
    (build_retry_request_body body acc).extra = body.extra ∧
    retryHistory acc =
      [⟨some "model", [⟨acc⟩]⟩, ⟨some "user", [⟨continuePrompt⟩]⟩] ∧
    (∀ j, findLastUserIdx (body.contents.getD []) = some j →
        (build_retry_request_body body acc).contents =
          some ((body.contents.getD []).take (j + 1) ++ retryHistory acc ++
            (body.contents.getD []).drop (j + 1)) ∧
        j < (body.contents.getD []).length ∧
        (∃ t, (body.contents.getD []).get? j = some t ∧ t.role = some "user") ∧
        (∀ i t, j < i → (body.contents.getD []).get? i = some t →
          t.role ≠ some "user")) ∧
    (findLastUserIdx (body.contents.getD []) = none →
        (∀ t ∈ body.contents.getD [], t.role ≠ some "user") ∧
        (build_retry_request_body body acc).contents =
          some (body.contents.getD [] ++ retryHistory acc)) := by
  refine ⟨?_, rfl, ?_, ?_⟩
  · cases h : findLastUserIdx (body.contents.getD []) with
    | none => simp [build_retry_request_body, h]
    | some j => simp [build_retry_request_body, h]
  · intro j hj
    obtain ⟨h1, h2, h3⟩ := findLastUserIdx_some hj
    refine ⟨?_, h1, h2, h3⟩
    simp [build_retry_request_body, hj]
  · intro hnone
    refine ⟨findLastUserIdx_none hnone, ?_⟩
    simp [build_retry_request_body, hnone]

/-- C8 witness on a concrete two-turn conversation: the last user turn is at
index 0, the splice lands right after it, and all other fields survive. -/
theorem C8_witness :
    findLastUserIdx ((⟨some [⟨some "user", [⟨"q1"⟩]⟩, ⟨some "model", [⟨"a1"⟩]⟩],
        [("generationConfig", "x")]⟩ : ReqBody).contents.getD []) = some 0 ∧
    ((build_retry_request_body ⟨some [⟨some "user", [⟨"q1"⟩]⟩, ⟨some "model", [⟨"a1"⟩]⟩],
        [("generationConfig", "x")]⟩ "part").extra = [("generationConfig", "x")] ∧
     retryHistory "part" =
       [⟨some "model", [⟨"part"⟩]⟩, ⟨some "user", [⟨continuePrompt⟩]⟩] ∧
     (∀ j, findLastUserIdx ((⟨some [⟨some "user", [⟨"q1"⟩]⟩, ⟨some "model", [⟨"a1"⟩]⟩],
          [("generationConfig", "x")]⟩ : ReqBody).contents.getD []) = some j →
        (build_retry_request_body ⟨some [⟨some "user", [⟨"q1"⟩]⟩, ⟨some "model", [⟨"a1"⟩]⟩],
            [("generationConfig", "x")]⟩ "part").contents =
          some (((⟨some [⟨some "user", [⟨"q1"⟩]⟩, ⟨some "model", [⟨"a1"⟩]⟩],
              [("generationConfig", "x")]⟩ : ReqBody).contents.getD []).take (j + 1) ++
            retryHistory "part" ++
            ((⟨some [⟨some "user", [⟨"q1"⟩]⟩, ⟨some "model", [⟨"a1"⟩]⟩],
              [("generationConfig", "x")]⟩ : ReqBody).contents.getD []).drop (j + 1)) ∧
        j < ((⟨some [⟨some "user", [⟨"q1"⟩]⟩, ⟨some "model", [⟨"a1"⟩]⟩],
            [("generationConfig", "x")]⟩ : ReqBody).contents.getD []).length ∧
        (∃ t, ((⟨some [⟨some "user", [⟨"q1"⟩]⟩, ⟨some "model", [⟨"a1"⟩]⟩],
            [("generationConfig", "x")]⟩ : ReqBody).contents.getD []).get? j = some t ∧
          t.role = some "user") ∧
        (∀ i t, j < i →
          ((⟨some [⟨some "user", [⟨"q1"⟩]⟩, ⟨some "model", [⟨"a1"⟩]⟩],
            [("generationConfig", "x")]⟩ : ReqBody).contents.getD []).get? i = some t →
          t.role ≠ some "user")) ∧
     (findLastUserIdx ((⟨some [⟨some "user", [⟨"q1"⟩]⟩, ⟨some "model", [⟨"a1"⟩]⟩],
          [("generationConfig", "x")]⟩ : ReqBody).contents.getD []) = none →
        (∀ t ∈ (⟨some [⟨some "user", [⟨"q1"⟩]⟩, ⟨some "model", [⟨"a1"⟩]⟩],
            [("generationConfig", "x")]⟩ : ReqBody).contents.getD [],
          t.role ≠ some "user") ∧
        (build_retry_request_body ⟨some [⟨some "user", [⟨"q1"⟩]⟩, ⟨some "model", [⟨"a1"⟩]⟩],
            [("generationConfig", "x")]⟩ "part").contents =
          some ((⟨some [⟨some "user", [⟨"q1"⟩]⟩, ⟨some "model", [⟨"a1"⟩]⟩],
            [("generationConfig", "x")]⟩ : ReqBody).contents.getD [] ++
            retryHistory "part"))) :=
  ⟨by decide,
   C8_retry_body_splice ⟨some [⟨some "user", [⟨"q1"⟩]⟩, ⟨some "model", [⟨"a1"⟩]⟩],
     [("generationConfig", "x")]⟩ "part"⟩

/-! ## Claim C7: incomplete-on-clean downgrade -/

/-- C7: when an attempt ends CLEAN but the stripped accumulated text is
non-empty and does not end in FINAL_PUNCTUATION, the final guard downgrades
it to FINISH_INCOMPLETE and (within the retry budget) a retry begins; for any
attempt outcome, the session completes exactly when the (guarded) attempt is
CLEAN — every other termination is retried while budget remains. -/
theorem C7_clean_downgrade (chunks : List Chunk) (st0 : AttemptState)
    (swallowThoughts : Bool) (maxRetries count : Nat)
    (hclean : (runAttempt chunks st0).clean_exit = true)
    (hne : pyStrip (runAttempt chunks st0).endState.accumulated ≠ [])
    (hlast : lastCharInFinalPunct
      (pyStrip (runAttempt chunks st0).endState.accumulated) = false) :
    (finalCompletenessGuard (runAttempt chunks st0)).clean_exit = false ∧
    (finalCompletenessGuard (runAttempt chunks st0)).interruption =
      some "FINISH_INCOMPLETE" ∧
    (count < maxRetries →
      ∃ st1, sessionDecide swallowThoughts maxRetries count
        (finalCompletenessGuard (runAttempt chunks st0)) =
          SessionDecision.retryWith st1) ∧
    (∀ r : AttemptResult, ∀ mr cnt : Nat, cnt < mr →
      (sessionDecide swallowThoughts mr cnt r = SessionDecision.completed ↔
        r.clean_exit = true)) := by
  have hacc : (runAttempt chunks st0).endState.accumulated ≠ [] := by
    intro h
    apply hne
    rw [h]
    rfl
  have hguard : finalCompletenessGuard (runAttempt chunks st0) =
      ⟨(runAttempt chunks st0).endState, (runAttempt chunks st0).yielded,
       some "FINISH_INCOMPLETE", false⟩ := by
    unfold finalCompletenessGuard
    rw [if_pos ⟨hclean, hacc⟩, if_neg (by rw [hlast]; exact Bool.noConfusion)]
  refine ⟨by rw [hguard], by rw [hguard], ?_, ?_⟩
  · intro hcnt
    rw [hguard]
    simp only [sessionDecide]
    simp [Nat.not_le.mpr hcnt]
  · intro r mr cnt hcnt
    unfold sessionDecide
    by_cases hr : r.clean_exit = true
    · simp [hr]
    · simp [hr, Nat.not_le.mpr hcnt]

/-- C7 witness: a MAX_TOKENS finish with text "Hi" is clean in the loop, the
stripped text ends in a letter, and the guard downgrades it. -/
theorem C7_witness :
    ((runAttempt [⟨"Hi".data, false, some "MAX_TOKENS", false⟩]
        ⟨[], false, false⟩).clean_exit = true ∧
     pyStrip (runAttempt [⟨"Hi".data, false, some "MAX_TOKENS", false⟩]
        ⟨[], false, false⟩).endState.accumulated ≠ [] ∧
     lastCharInFinalPunct (pyStrip (runAttempt
        [⟨"Hi".data, false, some "MAX_TOKENS", false⟩]
        ⟨[], false, false⟩).endState.accumulated) = false) ∧
    ((finalCompletenessGuard (runAttempt [⟨"Hi".data, false, some "MAX_TOKENS", false⟩]
        ⟨[], false, false⟩)).clean_exit = false ∧
     (finalCompletenessGuard (runAttempt [⟨"Hi".data, false, some "MAX_TOKENS", false⟩]
        ⟨[], false, false⟩)).interruption = some "FINISH_INCOMPLETE" ∧
     (0 < 3 →
       ∃ st1, sessionDecide true 3 0
         (finalCompletenessGuard (runAttempt [⟨"Hi".data, false, some "MAX_TOKENS", false⟩]
           ⟨[], false, false⟩)) = SessionDecision.retryWith st1) ∧
     (∀ r : AttemptResult, ∀ mr cnt : Nat, cnt < mr →
       (sessionDecide true mr cnt r = SessionDecision.completed ↔
         r.clean_exit = true))) :=
  ⟨⟨by decide, by decide, by decide⟩,
   C7_clean_downgrade [⟨"Hi".data, false, some "MAX_TOKENS", false⟩]
     ⟨[], false, false⟩ true 3 0 (by decide) (by decide) (by decide)⟩

/-! ## Claim C9: swallow mode -/

theorem processLines_step_swallow_drop (c : Chunk) (rest : List Chunk)
    (st : AttemptState) (out : List Chunk) (hsw : st.swallow_mode_active = true)
    (hth : c.is_thought = true) (hfr : c.finishReason = none) :
    processLines (c :: rest) st out = processLines rest st out := by
  simp [processLines, hsw, hth, hfr]

theorem processLines_step_swallow_finish (c : Chunk) (rest : List Chunk)
    (st : AttemptState) (out : List Chunk) (fr : String)
    (hsw : st.swallow_mode_active = true) (hth : c.is_thought = true)
    (hfr : c.finishReason = some fr) :
    processLines (c :: rest) st out = ⟨st, out, some "FINISH_DURING_THOUGHT", false⟩ := by
  simp [processLines, hsw, hth, hfr]

theorem processLines_step_swallow_exit (c : Chunk) (rest : List Chunk)
    (st : AttemptState) (out : List Chunk) (hsw : st.swallow_mode_active = true)
    (hth : c.is_thought = false) :
    processLines (c :: rest) st out =
      processLines (c :: rest) { st with swallow_mode_active := false } out := by
  simp [processLines, hsw, hth]

theorem processLines_swallowed_run (pre : List Chunk) :
    ∀ (post : List Chunk) (st : AttemptState) (out : List Chunk),
      st.swallow_mode_active = true →
      (∀ c ∈ pre, c.is_thought = true ∧ c.finishReason = none) →
      processLines (pre ++ post) st out = processLines post st out := by
  induction pre with
  | nil => intro post st out _ _; rfl
  | cons c cs ih =>
      intro post st out hsw hpre
      have hc := hpre c (List.mem_cons_self _ _)
      rw [List.cons_append,
        processLines_step_swallow_drop c (cs ++ post) st out hsw hc.1 hc.2]
      exact ih post st out hsw (fun d hd => hpre d (List.mem_cons_of_mem _ hd))

/-- C9: (1) after a non-clean attempt that had already produced formal text,
with SWALLOW_THOUGHTS on and budget remaining, the retry starts with swallow
mode active; (2) while swallow mode is active a prefix of thought chunks
without finish reasons is dropped entirely — the attempt behaves exactly as
if it started at the remaining chunks, so no swallowed thought is forwarded
before the next formal chunk; (3) a finish reason on a swallowed thought
chunk classifies the attempt FINISH_DURING_THOUGHT with nothing forwarded;
(4) swallow mode ends exactly at the first non-thought (formal) chunk, whose
processing continues as in normal mode. -/
theorem C9_swallow_thoughts (r : AttemptResult) (mr cnt : Nat)
    (pre post : List Chunk) (cth cfm : Chunk) (rest : List Chunk)
    (st : AttemptState) (fr : String)
    (hsw : st.swallow_mode_active = true)
    (hpre : ∀ d ∈ pre, d.is_thought = true ∧ d.finishReason = none) :
    (r.clean_exit = false → r.endState.is_outputting_formal_text = true → cnt < mr →
      sessionDecide true mr cnt r =
        SessionDecision.retryWith { r.endState with swallow_mode_active := true }) ∧
    runAttempt (pre ++ post) st = runAttempt post st ∧
    (cth.is_thought = true → cth.finishReason = some fr →
      (runAttempt (pre ++ cth :: rest) st).interruption =
        some "FINISH_DURING_THOUGHT" ∧
      (runAttempt (pre ++ cth :: rest) st).yielded = []) ∧
    (cfm.is_thought = false →
      processLines (cfm :: rest) st [] =
        processLines (cfm :: rest) { st with swallow_mode_active := false } []) := by
  refine ⟨?_, ?_, ?_, ?_⟩
  · intro hclean hfmt hcnt
    unfold sessionDecide
    rw [if_neg (by rw [hclean]; exact Bool.noConfusion)]
    simp [hfmt, Nat.not_le.mpr hcnt]
  · unfold runAttempt
    rw [processLines_swallowed_run pre post st [] hsw hpre]
  · intro hth hfr
    have hrun : processLines (pre ++ cth :: rest) st [] =
        ⟨st, [], some "FINISH_DURING_THOUGHT", false⟩ := by
      rw [processLines_swallowed_run pre (cth :: rest) st [] hsw hpre,
        processLines_step_swallow_finish cth rest st [] fr hsw hth hfr]
    unfold runAttempt
    rw [hrun]
    exact ⟨rfl, rfl⟩
  · intro hth
    exact processLines_step_swallow_exit cfm rest st [] hsw hth

/-- C9 witness with a one-thought swallowed prefix, a thought chunk carrying
STOP, and a formal chunk ending the swallow mode. -/
theorem C9_witness :
    ((⟨"x".data, true, true⟩ : AttemptState).swallow_mode_active = true ∧
     (∀ d ∈ [(⟨"t1".data, true, none, false⟩ : Chunk)],
        d.is_thought = true ∧ d.finishReason = none)) ∧
    (((⟨⟨"x".data, true, false⟩, [], some "DROP", false⟩ : AttemptResult).clean_exit = false →
      (⟨⟨"x".data, true, false⟩, [], some "DROP", false⟩ :
        AttemptResult).endState.is_outputting_formal_text = true → 0 < 3 →
      sessionDecide true 3 0 ⟨⟨"x".data, true, false⟩, [], some "DROP", false⟩ =
        SessionDecision.retryWith
          { (⟨⟨"x".data, true, false⟩, [], some "DROP", false⟩ :
              AttemptResult).endState with swallow_mode_active := true }) ∧
     runAttempt ([(⟨"t1".data, true, none, false⟩ : Chunk)] ++
        [⟨"ok.".data, false, some "STOP", false⟩]) ⟨"x".data, true, true⟩ =
       runAttempt [⟨"ok.".data, false, some "STOP", false⟩] ⟨"x".data, true, true⟩ ∧
     ((⟨"t2".data, true, some "STOP", false⟩ : Chunk).is_thought = true →
      (⟨"t2".data, true, some "STOP", false⟩ : Chunk).finishReason = some "STOP" →
      (runAttempt ([(⟨"t1".data, true, none, false⟩ : Chunk)] ++
          ⟨"t2".data, true, some "STOP", false⟩ :: []) ⟨"x".data, true, true⟩).interruption
        = some "FINISH_DURING_THOUGHT" ∧
      (runAttempt ([(⟨"t1".data, true, none, false⟩ : Chunk)] ++
          ⟨"t2".data, true, some "STOP", false⟩ :: []) ⟨"x".data, true, true⟩).yielded
        = []) ∧
     ((⟨"Formal".data, false, none, false⟩ : Chunk).is_thought = false →
      processLines (⟨"Formal".data, false, none, false⟩ :: []) ⟨"x".data, true, true⟩ [] =
        processLines (⟨"Formal".data, false, none, false⟩ :: [])
          { (⟨"x".data, true, true⟩ : AttemptState) with swallow_mode_active := false } [])) :=
  ⟨⟨by decide, by decide⟩,
   C9_swallow_thoughts ⟨⟨"x".data, true, false⟩, [], some "DROP", false⟩ 3 0
     [⟨"t1".data, true, none, false⟩] [⟨"ok.".data, false, some "STOP", false⟩]
     ⟨"t2".data, true, some "STOP", false⟩ ⟨"Formal".data, false, none, false⟩ []
     ⟨"x".data, true, true⟩ "STOP" (by decide) (by decide)⟩
